import Mathlib

/-!
Shallow embedding of the MiroFishOpt local graph backend
(`src/backend/app/services/local_graph_store.py`, `local_graph_builder.py`,
`local_graph_extractor.py`, `local_tools.py`, `local_entity_reader.py`).

Modelling conventions:
- Python strings are Lean `String`; Python `None`-able values are `Option`.
- Cypher `NULL` is `Option.none`; `COALESCE` is `cypherCoalesce`.
- JSON attribute maps are `Attrs := List (String × String)`; the
  `json.dumps`/`json.loads` round-trip is modelled as the identity, so the
  stored `attributes_json` column holds the map itself.
- The external SHA-1 digest (`hashlib.sha1(...).hexdigest()[:16]`) is an
  abstract parameter `sha1hex16 : String → String`.
- `uuid.uuid4()` randomness is modelled as explicitly supplied hex strings.
- `datetime.now().isoformat()` is an explicitly supplied `now : String`.
-/

/-- Attribute maps (`Dict[str, Any]` restricted to string values). -/
abbrev Attrs := List (String × String)

/-- Python `str.strip()`: drop whitespace from both ends. -/
def pyStrip (s : String) : String :=
  ⟨((s.data.dropWhile Char.isWhitespace).reverse.dropWhile Char.isWhitespace).reverse⟩

/-- Python `str.lower()` (ASCII case fold, modelling CPython's casefold on the
names that occur here). -/
def pyLower (s : String) : String := ⟨s.data.map Char.toLower⟩

/-- Python `s or d` for strings (empty string is falsy). -/
def pyOrStr (s d : String) : String := if s = "" then d else s

/-- Python `x or d` for an optional string (`None` and `""` are falsy). -/
def pyOrOptStr (o : Option String) (d : String) : String :=
  match o with
  | some s => if s = "" then d else s
  | none => d

/-- Python truthiness of an optional string. -/
def pyTruthy (o : Option String) : Bool :=
  match o with
  | some s => s != ""
  | none => false

/-- Cypher `COALESCE(a, b)`: first non-NULL argument. -/
def cypherCoalesce {α : Type} (a b : Option α) : Option α :=
  match a with
  | some x => some x
  | none => b

/-- `local_graph_store._stable_entity_uuid`:
`normalized = (name or "").strip().lower()`;
`digest = sha1(f"{project_id}:{entity_type}:{normalized}").hexdigest()[:16]`;
returns `f"ent_{digest}"`.  The truncated SHA-1 hex digest is the abstract
parameter `sha1hex16`. -/
def _stable_entity_uuid (sha1hex16 : String → String)
    (project_id entity_type : String) (name : Option String) : String :=
  let normalized := pyLower (pyStrip (name.getD ""))
  "ent_" ++ sha1hex16 (project_id ++ ":" ++ entity_type ++ ":" ++ normalized)

/-- `LocalEntity` dataclass of `local_graph_store.py`. -/
structure LocalEntity where
  project_id : String
  graph_id : String
  name : String
  entity_type : String
  summary : String := ""
  attributes : Option Attrs := none
  created_at : Option String := none
deriving Repr, DecidableEq

/-- The `LocalEntity.uuid` property. -/
def LocalEntity.uuid (e : LocalEntity) (sha1hex16 : String → String) : String :=
  _stable_entity_uuid sha1hex16 e.project_id e.entity_type (some e.name)

/-- `LocalRelation` dataclass of `local_graph_store.py`. -/
structure LocalRelation where
  project_id : String
  graph_id : String
  source_uuid : String
  target_uuid : String
  relation_name : String
  fact : String := ""
  attributes : Option Attrs := none
  created_at : Option String := none
  uuid : String := ""
deriving Repr, DecidableEq

/-! ## Extraction sanitizer (`local_graph_extractor.py`) -/

/-- One element of `ontology["entity_types"]` / `ontology["edge_types"]`
(only its `name` key is read). -/
structure OntoType where
  name : Option String
deriving Repr, DecidableEq

/-- The ontology dictionary as read by the extractor. -/
structure Ontology where
  entity_types : List OntoType := []
  edge_types : List OntoType := []
deriving Repr, DecidableEq

/-- `[e.get("name") for e in (ontology or {}).get(key, []) if e.get("name")]`. -/
def allowedNames (l : List OntoType) : List String :=
  l.filterMap (fun t =>
    match t.name with
    | some s => if s = "" then none else some s
    | none => none)

/-- A raw entity record in the LLM's JSON reply (any key may be absent). -/
structure RawEntity where
  name : Option String := none
  type : Option String := none
  summary : Option String := none
  attributes : Option Attrs := none
deriving Repr, DecidableEq

/-- A raw relation record in the LLM's JSON reply. -/
structure RawRelation where
  source : Option String := none
  source_type : Option String := none
  target : Option String := none
  target_type : Option String := none
  relation : Option String := none
  fact : Option String := none
  attributes : Option Attrs := none
deriving Repr, DecidableEq

/-- The parsed JSON object returned by `llm.chat_json` (either list may be
absent or `None`; a list element itself may be `None`: the code guards with
`(ent or {})` / `(rel or {})`). -/
structure RawExtraction where
  entities : Option (List (Option RawEntity)) := none
  relations : Option (List (Option RawRelation)) := none
deriving Repr, DecidableEq

/-- A sanitized entity record produced by `extract`. -/
structure CleanEntity where
  name : String
  type : String
  summary : String
  attributes : Attrs
deriving Repr, DecidableEq

/-- A sanitized relation record produced by `extract`. -/
structure CleanRelation where
  source : String
  source_type : String
  target : String
  target_type : String
  relation : String
  fact : String
  attributes : Attrs
deriving Repr, DecidableEq

/-- Sanitized result of `extract`. -/
structure Extraction where
  entities : List CleanEntity
  relations : List CleanRelation
deriving Repr, DecidableEq

/-- Body of the entity-sanitation loop of `LocalGraphExtractor.extract`
(lines 85-100): `None`/empty name or type is dropped; a type outside a
non-empty allowed set is dropped; survivors are stripped, with missing
summary defaulting to `""` and missing attributes to `{}`. -/
def cleanEntity (entity_types : List String) (o : Option RawEntity) :
    Option CleanEntity :=
  let name := o.bind RawEntity.name
  let etype := o.bind RawEntity.type
  match name, etype with
  | some n, some t =>
    if n = "" ∨ t = "" then none
    else if entity_types ≠ [] ∧ t ∉ entity_types then none
    else some
      { name := pyStrip n
        type := pyStrip t
        summary := pyStrip (pyOrOptStr (o.bind RawEntity.summary) "")
        attributes := (o.bind RawEntity.attributes).getD [] }
  | _, _ => none

/-- Body of the relation-sanitation loop of `LocalGraphExtractor.extract`
(lines 102-124). -/
def cleanRelation (edge_types : List String) (o : Option RawRelation) :
    Option CleanRelation :=
  let source := o.bind RawRelation.source
  let target := o.bind RawRelation.target
  let source_type := o.bind RawRelation.source_type
  let target_type := o.bind RawRelation.target_type
  let rel_name := o.bind RawRelation.relation
  match source, target, source_type, target_type, rel_name with
  | some s, some t, some st, some tt, some rn =>
    if s = "" ∨ t = "" ∨ st = "" ∨ tt = "" ∨ rn = "" then none
    else if edge_types ≠ [] ∧ rn ∉ edge_types then none
    else some
      { source := pyStrip s
        source_type := pyStrip st
        target := pyStrip t
        target_type := pyStrip tt
        relation := pyStrip rn
        fact := pyStrip (pyOrOptStr (o.bind RawRelation.fact) "")
        attributes := (o.bind RawRelation.attributes).getD [] }
  | _, _, _, _, _ => none

namespace LocalGraphExtractor

/-- `LocalGraphExtractor.extract`.  The external `llm.chat_json` call is
modelled by its outcome `llmOutcome`: an exception from the LLM call is
logged and re-raised (`except Exception as e: logger.error(...); raise`),
a successful reply is sanitized field by field. -/
def extract (llmOutcome : Except String RawExtraction) (ontology : Ontology) :
    Except String Extraction :=
  let entity_types := allowedNames ontology.entity_types
  let edge_types := allowedNames ontology.edge_types
  match llmOutcome with
  | .error e => .error e
  | .ok result =>
    let entities := result.entities.getD []
    let relations := result.relations.getD []
    .ok
      { entities := entities.filterMap (cleanEntity entity_types)
        relations := relations.filterMap (cleanRelation edge_types) }

end LocalGraphExtractor

example :
    cleanEntity ["Person"]
      (some { name := some " Bob ", type := some "Person" }) =
      some { name := "Bob", type := "Person", summary := "", attributes := [] } := by
  decide

example : cleanEntity ["Person"] (some { name := some "x", type := some "Org" }) = none := by
  decide

/-! ## Graph store (`local_graph_store.py`, Neo4j state model)

Node and relationship properties are `Option`-typed because a `MERGE`d
node exists before its first `SET` with all properties `NULL`; the graph
topology fields (`uuid`, endpoint uuids, edge keys) are plain strings.  The
`uuid` uniqueness constraint of `_ensure_schema` is relied on by Cypher
`MERGE (e:Entity {uuid: ...})`; a `MERGE`/`SET` statement updates every
matching row. -/

/-- An `(:Entity)` node. -/
structure EntityRec where
  uuid : String
  project_id : Option String := none
  graph_id : Option String := none
  name : Option String := none
  entity_type : Option String := none
  summary : Option String := none
  attributes_json : Option Attrs := none
  created_at : Option String := none
deriving Repr, DecidableEq

/-- A `(:Chunk)` node. -/
structure ChunkRec where
  chunk_id : String
  project_id : Option String := none
  graph_id : Option String := none
  text : Option String := none
  created_at : Option String := none
deriving Repr, DecidableEq

/-- A `(:Graph)` meta node (all properties set at `CREATE`). -/
structure GraphRec where
  graph_id : String
  project_id : String
  name : String
  ontology_json : Ontology
  created_at : String
deriving Repr, DecidableEq

/-- A `[:REL]` relationship (`uuid` property plus endpoint node uuids). -/
structure RelRec where
  uuid : String
  source_uuid : String
  target_uuid : String
  project_id : Option String := none
  graph_id : Option String := none
  name : Option String := none
  fact : Option String := none
  fact_type : Option String := none
  attributes_json : Option Attrs := none
  created_at : Option String := none
deriving Repr, DecidableEq

/-- A `[:MENTIONS]` relationship from a chunk to an entity. -/
structure MentionRec where
  chunk_id : String
  entity_uuid : String
deriving Repr, DecidableEq

/-- A `[:HAS_CHUNK]` relationship from a graph meta node to a chunk. -/
structure HasChunkRec where
  graph_id : String
  chunk_id : String
deriving Repr, DecidableEq

/-- The Neo4j database contents touched by this service. -/
structure Neo4jState where
  graphs : List GraphRec := []
  entities : List EntityRec := []
  chunks : List ChunkRec := []
  rels : List RelRec := []
  mentions : List MentionRec := []
  hasChunks : List HasChunkRec := []
deriving Repr, DecidableEq

/-- An empty database. -/
def emptyState : Neo4jState := {}

namespace LocalNeo4jGraphStore

/-- `create_graph`: `graph_id = f"mirofish_local_{uuid.uuid4().hex[:16]}"`,
then `CREATE (g:Graph {...})`.  The random hex draw is the `hex16`
argument; `json.dumps(ontology or {})` is modelled as storing the ontology
value itself. -/
def create_graph (project_id name : String) (ontology : Option Ontology)
    (hex16 now : String) (st : Neo4jState) : String × Neo4jState :=
  let graph_id := "mirofish_local_" ++ hex16
  (graph_id,
    { st with graphs := st.graphs ++
        [{ graph_id := graph_id, project_id := project_id, name := name
           ontology_json := ontology.getD {}, created_at := now }] })

/-- The `SET` clause of `upsert_entities` applied to one matched (or
freshly `MERGE`-created) entity node.  Parameters are exactly the Python
keyword arguments: `summary=ent.summary or ""`,
`attributes_json=json.dumps(ent.attributes or {})`,
`created_at=ent.created_at or _now_iso()` — none of them is ever `NULL`. -/
def setEntityClause (ent : LocalEntity)
    (now : String) (e : EntityRec) : EntityRec :=
  { e with
    project_id := some ent.project_id
    graph_id := some ent.graph_id
    name := some ent.name
    entity_type := some ent.entity_type
    summary := cypherCoalesce (some (pyOrStr ent.summary "")) e.summary
    attributes_json := cypherCoalesce (some (ent.attributes.getD [])) e.attributes_json
    created_at := cypherCoalesce e.created_at (some (pyOrOptStr ent.created_at now)) }

/-- One loop iteration of `upsert_entities`:
`MERGE (e:Entity {uuid: $uuid}) SET ...`. -/
def upsertOneEntity (sha1hex16 : String → String) (ent : LocalEntity)
    (now : String) (st : Neo4jState) : Neo4jState :=
  let u := ent.uuid sha1hex16
  if st.entities.any (fun e => e.uuid == u) then
    { st with entities := st.entities.map (fun e =>
        if e.uuid == u then setEntityClause ent now e else e) }
  else
    { st with entities := st.entities ++
        [setEntityClause ent now { uuid := u }] }

/-- `upsert_entities`: iterates the batch, collecting `ent.uuid` in input
order. -/
def upsert_entities (sha1hex16 : String → String) (ents : List LocalEntity)
    (now : String) (st : Neo4jState) : List String × Neo4jState :=
  match ents with
  | [] => ([], st)
  | ent :: rest =>
    let st' := upsertOneEntity sha1hex16 ent now st
    let p := upsert_entities sha1hex16 rest now st'
    (ent.uuid sha1hex16 :: p.1, p.2)

/-- First half of `upsert_chunk`:
`MERGE (c:Chunk {chunk_id}) SET ...`. -/
def upsertChunkNode (project_id graph_id chunk_id text now : String)
    (st : Neo4jState) : Neo4jState :=
  let setClause := fun (c : ChunkRec) =>
    { c with
      project_id := some project_id
      graph_id := some graph_id
      text := some text
      created_at := cypherCoalesce c.created_at (some now) }
  if st.chunks.any (fun c => c.chunk_id == chunk_id) then
    { st with chunks := st.chunks.map (fun c =>
        if c.chunk_id == chunk_id then setClause c else c) }
  else
    { st with chunks := st.chunks ++ [setClause { chunk_id := chunk_id }] }

/-- Second half of `upsert_chunk`:
`WITH c MATCH (g:Graph {graph_id}) MERGE (g)-[:HAS_CHUNK]->(c)`.  When no
graph meta node matches, the chunk write has already happened and only the
link is skipped. -/
def linkGraphChunk (graph_id chunk_id : String) (st : Neo4jState) : Neo4jState :=
  if st.graphs.any (fun g => g.graph_id == graph_id) then
    let link : HasChunkRec := { graph_id := graph_id, chunk_id := chunk_id }
    if st.hasChunks.contains link then st
    else { st with hasChunks := st.hasChunks ++ [link] }
  else st

/-- `upsert_chunk`: the single Cypher statement, node write then link. -/
def upsert_chunk (project_id graph_id chunk_id text now : String)
    (st : Neo4jState) : Neo4jState :=
  linkGraphChunk graph_id chunk_id
    (upsertChunkNode project_id graph_id chunk_id text now st)

/-- `link_mentions`: early return on an empty uuid list; otherwise
`MATCH (c:Chunk {chunk_id, graph_id}) UNWIND $uuids AS uuid
MATCH (e:Entity {uuid, graph_id}) MERGE (c)-[:MENTIONS]->(e)`. -/
def link_mentions (chunk_id : String) (entity_uuids : List String)
    (graph_id : String) (st : Neo4jState) : Neo4jState :=
  if entity_uuids = [] then st
  else if st.chunks.any (fun c => c.chunk_id == chunk_id && c.graph_id == some graph_id) then
    entity_uuids.foldl (fun st u =>
      if st.entities.any (fun e => e.uuid == u && e.graph_id == some graph_id) then
        let m : MentionRec := { chunk_id := chunk_id, entity_uuid := u }
        if st.mentions.contains m then st
        else { st with mentions := st.mentions ++ [m] }
      else st) st
  else st

/-- The `SET` clause of `upsert_relations` (its parameters are never
`NULL`, while `created_at` keeps an existing value). -/
def setRelClause (rel : LocalRelation) (now : String) (r : RelRec) : RelRec :=
  { r with
    project_id := some rel.project_id
    graph_id := some rel.graph_id
    name := some rel.relation_name
    fact := some (pyOrStr rel.fact "")
    fact_type := some rel.relation_name
    attributes_json := some (rel.attributes.getD [])
    created_at := cypherCoalesce r.created_at (some now) }

/-- One loop iteration of `upsert_relations`:
`rel_uuid = rel.uuid or f"rel_{uuid.uuid4().hex[:16]}"`, then
`MATCH (s:Entity {uuid: $source_uuid, graph_id}) MATCH (t:...)
MERGE (s)-[r:REL {uuid: $uuid}]->(t) SET ...`.  A failed endpoint `MATCH`
yields zero rows, so the relation is skipped. -/
def upsertOneRelation (rel : LocalRelation) (freshHex now : String)
    (st : Neo4jState) : Neo4jState :=
  let rel_uuid := pyOrStr rel.uuid ("rel_" ++ freshHex)
  if st.entities.any (fun e => e.uuid == rel.source_uuid && e.graph_id == some rel.graph_id)
      && st.entities.any (fun e => e.uuid == rel.target_uuid && e.graph_id == some rel.graph_id) then
    if st.rels.any (fun r =>
        r.uuid == rel_uuid && r.source_uuid == rel.source_uuid && r.target_uuid == rel.target_uuid) then
      { st with rels := st.rels.map (fun r =>
          if r.uuid == rel_uuid && r.source_uuid == rel.source_uuid && r.target_uuid == rel.target_uuid then
            setRelClause rel now r
          else r) }
    else
      { st with rels := st.rels ++
          [setRelClause rel now
            { uuid := rel_uuid, source_uuid := rel.source_uuid, target_uuid := rel.target_uuid }] }
  else st

/-- `upsert_relations`: iterates the batch; `freshAt i` is the `uuid4` hex
draw of the i-th iteration (drawn whether or not the row is skipped). -/
def upsert_relations (freshAt : Nat → String) (rels : List LocalRelation)
    (now : String) (st : Neo4jState) : Neo4jState :=
  match rels with
  | [] => st
  | rel :: rest =>
    upsert_relations (fun i => freshAt (i + 1)) rest now
      (upsertOneRelation rel (freshAt 0) now st)

/-- `delete_graph`, first statement: `MATCH (g:Graph {graph_id})
OPTIONAL MATCH (g)-[:HAS_CHUNK]->(c:Chunk)
OPTIONAL MATCH (c)-[m:MENTIONS]->(e:Entity)
OPTIONAL MATCH (e)-[r:REL]->(e2:Entity)
DETACH DELETE g, c, e, e2`.  With no matching graph node there are no rows
and nothing is deleted; otherwise the union over all rows deletes the
graph node, its linked chunks, the entities those chunks mention, the
`REL`-successors of those entities, and (`DETACH`) every relationship
touching a deleted node. -/
def deleteGraphStmt1 (graph_id : String) (st : Neo4jState) : Neo4jState :=
  if st.graphs.any (fun g => g.graph_id == graph_id) then
    let chunkDel := fun (c : ChunkRec) =>
      st.hasChunks.any (fun h => h.graph_id == graph_id && h.chunk_id == c.chunk_id)
    let entMentioned := fun (u : String) =>
      st.chunks.any (fun c => chunkDel c &&
        st.mentions.any (fun m => m.chunk_id == c.chunk_id && m.entity_uuid == u))
    let entDel := fun (u : String) =>
      entMentioned u ||
        st.rels.any (fun r => entMentioned r.source_uuid && r.target_uuid == u)
    let chunkIdDel := fun (cid : String) =>
      st.chunks.any (fun c => chunkDel c && c.chunk_id == cid)
    { graphs := st.graphs.filter (fun g => !(g.graph_id == graph_id))
      entities := st.entities.filter (fun e => !entDel e.uuid)
      chunks := st.chunks.filter (fun c => !chunkDel c)
      rels := st.rels.filter (fun r => !entDel r.source_uuid && !entDel r.target_uuid)
      mentions := st.mentions.filter (fun m =>
        !chunkIdDel m.chunk_id && !entDel m.entity_uuid)
      hasChunks := st.hasChunks.filter (fun h =>
        !(h.graph_id == graph_id) && !chunkIdDel h.chunk_id) }
  else st

/-- `delete_graph`, second statement:
`MATCH (e:Entity {graph_id}) DETACH DELETE e`. -/
def deleteGraphStmt2 (graph_id : String) (st : Neo4jState) : Neo4jState :=
  let entDel := fun (u : String) =>
    st.entities.any (fun e => e.graph_id == some graph_id && e.uuid == u)
  { st with
    entities := st.entities.filter (fun e => !(e.graph_id == some graph_id))
    rels := st.rels.filter (fun r => !entDel r.source_uuid && !entDel r.target_uuid)
    mentions := st.mentions.filter (fun m => !entDel m.entity_uuid) }

/-- `delete_graph`, third statement:
`MATCH (c:Chunk {graph_id}) DETACH DELETE c`. -/
def deleteGraphStmt3 (graph_id : String) (st : Neo4jState) : Neo4jState :=
  let chunkIdDel := fun (cid : String) =>
    st.chunks.any (fun c => c.graph_id == some graph_id && c.chunk_id == cid)
  { st with
    chunks := st.chunks.filter (fun c => !(c.graph_id == some graph_id))
    mentions := st.mentions.filter (fun m => !chunkIdDel m.chunk_id)
    hasChunks := st.hasChunks.filter (fun h => !chunkIdDel h.chunk_id) }

/-- `delete_graph`: the three session statements in order. -/
def delete_graph (graph_id : String) (st : Neo4jState) : Neo4jState :=
  deleteGraphStmt3 graph_id (deleteGraphStmt2 graph_id (deleteGraphStmt1 graph_id st))

/-- A node dictionary of `get_graph_data`. -/
structure NodeOut where
  uuid : String
  name : String
  labels : List String
  summary : String
  attributes : Attrs
  created_at : Option String
deriving Repr, DecidableEq

/-- An edge dictionary of `get_graph_data` (the constant
`valid_at`/`invalid_at`/`expired_at = None` and `episodes = []` keys are
omitted from the model). -/
structure EdgeOut where
  uuid : String
  name : String
  fact : String
  fact_type : String
  source_node_uuid : String
  target_node_uuid : String
  source_node_name : String
  target_node_name : String
  attributes : Attrs
  created_at : Option String
deriving Repr, DecidableEq

/-- The return dictionary of `get_graph_data`. -/
structure GraphData where
  graph_id : String
  nodes : List NodeOut
  edges : List EdgeOut
  node_count : Nat
  edge_count : Nat
deriving Repr, DecidableEq

/-- One row of the node query of `get_graph_data`. -/
def nodeOutOf (e : EntityRec) : NodeOut :=
  { uuid := e.uuid
    name := pyOrOptStr e.name ""
    labels := ["Entity", pyOrOptStr e.entity_type "Entity"]
    summary := pyOrOptStr e.summary ""
    attributes := e.attributes_json.getD []
    created_at := e.created_at }

/-- The `node_name_map` dict built while iterating the node rows
(assignment, so a later row with the same uuid wins). -/
def nodeNameMap (nodes : List NodeOut) (u : String) : String :=
  match (nodes.filter (fun n => n.uuid == u)).getLast? with
  | some n => n.name
  | none => ""

/-- The node query of `get_graph_data`:
`MATCH (e:Entity {graph_id: $graph_id}) RETURN ...`. -/
def nodesQuery (graph_id : String) (st : Neo4jState) : List NodeOut :=
  (st.entities.filter (fun e => e.graph_id == some graph_id)).map nodeOutOf

/-- The edge query of `get_graph_data`:
`MATCH (s:Entity {graph_id})-[r:REL {graph_id}]->(t:Entity {graph_id})
RETURN ...`, with rows denormalized through `node_name_map`. -/
def edgesQuery (graph_id : String) (st : Neo4jState)
    (nodes : List NodeOut) : List EdgeOut :=
  st.rels.filterMap (fun r =>
    if r.graph_id == some graph_id then
      match st.entities.find? (fun e => e.uuid == r.source_uuid && e.graph_id == some graph_id),
            st.entities.find? (fun e => e.uuid == r.target_uuid && e.graph_id == some graph_id) with
      | some s, some t =>
        some
          { uuid := r.uuid
            name := pyOrOptStr r.name ""
            fact := pyOrOptStr r.fact ""
            fact_type := pyOrOptStr r.fact_type (pyOrOptStr r.name "")
            source_node_uuid := s.uuid
            target_node_uuid := t.uuid
            source_node_name := nodeNameMap nodes s.uuid
            target_node_name := nodeNameMap nodes t.uuid
            attributes := r.attributes_json.getD []
            created_at := r.created_at }
      | _, _ => none
    else none)

/-- `get_graph_data`: the two queries plus counts. -/
def get_graph_data (graph_id : String) (st : Neo4jState) : GraphData :=
  let nodes := nodesQuery graph_id st
  let edges := edgesQuery graph_id st nodes
  { graph_id := graph_id
    nodes := nodes
    edges := edges
    node_count := nodes.length
    edge_count := edges.length }

end LocalNeo4jGraphStore

/-! ## Graph builder (`local_graph_builder.py`) -/

/-- The `(type, name)`-keyed lookup built per chunk
(`uuid_by_key[f"{ent.entity_type}:{ent.name}".lower()] = ent.uuid`): dict
assignment, so the last entity with a given key wins. -/
def uuid_by_key (sha1hex16 : String → String) (entities : List LocalEntity)
    (k : String) : Option String :=
  ((entities.filter (fun e =>
      pyLower (e.entity_type ++ ":" ++ e.name) == k)).getLast?).map
    (fun e => e.uuid sha1hex16)

/-- The relation-resolution loop of `build_graph_from_text`
(lines 124-143): each extracted relation's endpoints are looked up in the
chunk-local `uuid_by_key` map by `f"{type}:{name}".lower()`; a relation
with an unresolved endpoint (`if not source_uuid or not target_uuid`) is
skipped, the survivors become `LocalRelation`s. -/
def resolveRelations (sha1hex16 : String → String)
    (project_id graph_id now : String) (entities : List LocalEntity)
    (rels : List CleanRelation) : List LocalRelation :=
  rels.filterMap (fun rel =>
    let s_key := pyLower (rel.source_type ++ ":" ++ rel.source)
    let t_key := pyLower (rel.target_type ++ ":" ++ rel.target)
    match uuid_by_key sha1hex16 entities s_key,
          uuid_by_key sha1hex16 entities t_key with
    | some source_uuid, some target_uuid =>
      if source_uuid = "" ∨ target_uuid = "" then none
      else some
        { project_id := project_id
          graph_id := graph_id
          source_uuid := source_uuid
          target_uuid := target_uuid
          relation_name := rel.relation
          fact := rel.fact
          attributes := some rel.attributes
          created_at := some now }
    | _, _ => none)

/-- The ambient collaborators of one `build_graph_from_text` call. -/
structure BuildEnv where
  /-- Modelled from the spec: `TextProcessor.split_text` (the chunk
  splitter, whose source is not part of the analyzed tree) —
  `split(text, chunk_size, overlap)` returns the ordered chunk list. -/
  split : String → Nat → Nat → List String
  /-- Outcome of the `llm.chat_json` call made for chunk number `i`. -/
  llm : Nat → Except String RawExtraction
  /-- `_get_vector_store()`: `none` when `VECTOR_BACKEND != "qdrant"` or
  Qdrant init failed; otherwise the per-chunk outcome of `add_chunk`. -/
  vectorStore : Option (Nat → Except String Unit)
  /-- Whether a `progress_callback` was supplied. -/
  hasCallback : Bool
  /-- `uuid4` hex draw used for the graph id. -/
  graphHex : String
  /-- `uuid4` hex draws used for chunk ids, by chunk number. -/
  chunkHex : Nat → String
  /-- `uuid4` hex draws used inside `upsert_relations` for chunk `i`. -/
  relHex : Nat → Nat → String
  /-- `_now_iso()`. -/
  now : String
  /-- the truncated SHA-1 hex digest. -/
  sha1hex16 : String → String

/-- Result of the chunk loop of `build_graph_from_text`. -/
structure LoopOut where
  events : List (String × ℚ)
  outcome : Except String Unit
  store : Neo4jState
  vectors : List (String × String)
deriving Repr

/-- The progress label of chunk `idx` (`f"抽取实体/关系: {idx+1}/{len(chunks)}"`). -/
def chunkProgressLabel (idx nchunks : Nat) : String :=
  "抽取实体/关系: " ++ toString (idx + 1) ++ "/" ++ toString nchunks

/-- The progress fraction of chunk `idx`
(`0.05 + (idx / total) * 0.85`, with `total = max(len(chunks), 1)`). -/
def chunkProgressValue (idx total : Nat) : ℚ :=
  (0.05 : ℚ) + ((idx : ℚ) / (total : ℚ)) * 0.85

/-- The best-effort vector add of one loop iteration
(`if vector_store is not None: try: add_chunk(...) except: log`): a
successful add stores the chunk payload, a caught failure or a missing
vector store leaves the vector collection unchanged. -/
def vecStep (env : BuildEnv) (idx : Nat) (chunk_id chunk : String)
    (vst : List (String × String)) : List (String × String) :=
  match env.vectorStore with
  | none => vst
  | some add =>
    match add idx with
    | .ok _ => vst ++ [(chunk_id, chunk)]
    | .error _ => vst

/-- The store writes of one loop iteration after a successful extraction
(lines 102-145): build `LocalEntity` values, upsert them, link mentions,
resolve the chunk's relations against the chunk-local map, upsert them. -/
def chunkIngest (env : BuildEnv) (project_id graph_id chunk_id : String)
    (idx : Nat) (extracted : Extraction) (st : Neo4jState) : Neo4jState :=
  let entities : List LocalEntity := extracted.entities.map (fun ent =>
    { project_id := project_id
      graph_id := graph_id
      name := ent.name
      entity_type := ent.type
      summary := ent.summary
      attributes := some ent.attributes
      created_at := some env.now })
  let p := LocalNeo4jGraphStore.upsert_entities env.sha1hex16 entities env.now st
  let st := LocalNeo4jGraphStore.link_mentions chunk_id p.1 graph_id p.2
  let relations :=
    resolveRelations env.sha1hex16 project_id graph_id env.now entities
      extracted.relations
  LocalNeo4jGraphStore.upsert_relations (env.relHex idx) relations env.now st

/-- The `for idx, chunk in enumerate(chunks)` loop of
`build_graph_from_text` (lines 76-145): progress callback, chunk upsert,
best-effort vector add (`except ... continue`), extraction (a failure
propagates and aborts the remaining chunks), then `chunkIngest`. -/
def buildChunksLoop (env : BuildEnv) (project_id graph_id : String)
    (ont : Ontology) (nchunks total : Nat) :
    List String → Nat → Neo4jState → List (String × String) → LoopOut
  | [], _, st, vst => ⟨[], .ok (), st, vst⟩
  | chunk :: rest, idx, st, vst =>
    let ev : List (String × ℚ) :=
      if env.hasCallback then
        [(chunkProgressLabel idx nchunks, chunkProgressValue idx total)]
      else []
    let chunk_id := "chunk_" ++ env.chunkHex idx
    let st := LocalNeo4jGraphStore.upsert_chunk project_id graph_id chunk_id chunk env.now st
    let vst := vecStep env idx chunk_id chunk vst
    match LocalGraphExtractor.extract (env.llm idx) ont with
    | .error e => ⟨ev, .error e, st, vst⟩
    | .ok extracted =>
      let st := chunkIngest env project_id graph_id chunk_id idx extracted st
      let r := buildChunksLoop env project_id graph_id ont nchunks total rest (idx + 1) st vst
      ⟨ev ++ r.events, r.outcome, r.store, r.vectors⟩

/-- Result of `build_graph_from_text`: the progress events delivered to the
callback, the returned pair (or the propagated extraction error), and the
final persistent state. -/
structure BuildOut where
  events : List (String × ℚ)
  result : Except String (String × LocalNeo4jGraphStore.GraphData)
  store : Neo4jState
  vectors : List (String × String)
deriving Repr

/-- `LocalGraphBuilderService.build_graph_from_text`. -/
def build_graph_from_text (env : BuildEnv) (project_id text : String)
    (ontology : Ontology) (graph_name : String)
    (chunk_size chunk_overlap : Nat) (st0 : Neo4jState) : BuildOut :=
  let ev0 : List (String × ℚ) :=
    if env.hasCallback then [("创建本地图谱（Neo4j）...", (0.02 : ℚ))] else []
  let p := LocalNeo4jGraphStore.create_graph project_id graph_name
    (some ontology) env.graphHex env.now st0
  let graph_id := p.1
  let chunks := env.split text chunk_size chunk_overlap
  let total := max chunks.length 1
  let r := buildChunksLoop env project_id graph_id ontology chunks.length total
    chunks 0 p.2 []
  match r.outcome with
  | .error e => ⟨ev0 ++ r.events, .error e, r.store, r.vectors⟩
  | .ok _ =>
    let ev1 : List (String × ℚ) :=
      if env.hasCallback then [("读取图谱数据...", (0.95 : ℚ))] else []
    let graph_data := LocalNeo4jGraphStore.get_graph_data graph_id r.store
    let ev2 : List (String × ℚ) :=
      if env.hasCallback then [("完成", (1 : ℚ))] else []
    ⟨ev0 ++ r.events ++ ev1 ++ ev2, .ok (graph_id, graph_data), r.store, r.vectors⟩

/-! ## Tools service (`local_tools.py`) -/

/-- Outcome of the optional vector search in `quick_search`:
no vector store, a caught `search_chunks` exception, or the `"text"`
payloads of the returned items. -/
inductive VecOutcome where
  | disabled : VecOutcome
  | failed : String → VecOutcome
  | ok : List (Option String) → VecOutcome
deriving Repr, DecidableEq

/-- The `SearchResult` fields populated by `LocalToolsService.quick_search`
(`edges` and `nodes` are always empty there). -/
structure SearchResultM where
  facts : List String
  edges : List LocalNeo4jGraphStore.EdgeOut
  nodes : List LocalNeo4jGraphStore.NodeOut
  query : String
  total_count : Nat
deriving Repr, DecidableEq

/-- `LocalToolsService.quick_search`: vector results first
(`facts = [i.get("text", "") for i in items if i.get("text")]`, exceptions
caught), then the Neo4j edge-fact fallback
(`for e in (graph.get("edges") or [])[:limit]: if fact: facts.append`). -/
def quick_search (vec : VecOutcome) (st : Neo4jState)
    (graph_id query : String) (limit : Nat) : SearchResultM :=
  let facts : List String :=
    match vec with
    | .ok items => items.filterMap (fun t =>
        match t with
        | some s => if s = "" then none else some s
        | none => none)
    | _ => []
  let facts :=
    if facts = [] then
      ((LocalNeo4jGraphStore.get_graph_data graph_id st).edges.take limit).filterMap
        (fun e => if pyOrStr e.fact "" = "" then none else some (pyOrStr e.fact ""))
    else facts
  { facts := facts.take limit
    edges := []
    nodes := []
    query := query
    total_count := (facts.take limit).length }

/-! ## Entity reader (`local_entity_reader.py`) -/

/-- The `EntityNode` dataclass as populated by `LocalEntityReader`. -/
structure EntityNodeM where
  uuid : String
  name : String
  labels : List String
  summary : String
  attributes : Attrs
  related_edges : List LocalNeo4jGraphStore.EdgeOut
  related_nodes : List LocalNeo4jGraphStore.NodeOut
deriving Repr, DecidableEq

/-- The `FilteredEntities` dataclass (`entity_types` is a Python set,
modelled as a deduplicated list in first-insertion order). -/
structure FilteredEntitiesM where
  entities : List EntityNodeM
  entity_types : List String
  total_count : Nat
  filtered_count : Nat
deriving Repr, DecidableEq

/-- `_entity_type(node)`: first label that is neither `"Entity"` nor
`"Node"`. -/
def entityTypeOfNode (n : LocalNeo4jGraphStore.NodeOut) : Option String :=
  n.labels.find? (fun l => !(l == "Entity") && !(l == "Node"))

/-- Insert into a modelled Python set (keep first occurrence). -/
def insertDedup (l : List String) (s : String) : List String :=
  if l.contains s then l else l ++ [s]

/-- The `related_edges_by_uuid` bucket of one filtered uuid `u`: the loop
appends edge `e` to bucket `su` when `su in filtered_uuids` and to bucket
`tu` when `tu in filtered_uuids and tu != su`, so bucket `u` collects, in
edge order, the edges with `su = u`, plus those with `tu = u ∧ tu ≠ su`. -/
def relatedEdgesFor (fu : List String) (edges : List LocalNeo4jGraphStore.EdgeOut)
    (u : String) : List LocalNeo4jGraphStore.EdgeOut :=
  if fu.contains u then
    edges.filter (fun e =>
      e.source_node_uuid == u ||
        (e.target_node_uuid == u && !(e.target_node_uuid == e.source_node_uuid)))
  else []

/-- `node_lookup = {n.get("uuid"): n for n in nodes if n.get("uuid")}`:
dict comprehension, truthy keys only, last row wins. -/
def nodeLookup (nodes : List LocalNeo4jGraphStore.NodeOut) (u : String) :
    Option LocalNeo4jGraphStore.NodeOut :=
  if u = "" then none
  else (nodes.filter (fun n => n.uuid == u)).getLast?

/-- `other = tu if su == u else su`: the endpoint of an edge opposite to
`u`. -/
def edgeOtherEnd (e : LocalNeo4jGraphStore.EdgeOut) (u : String) : String :=
  if e.source_node_uuid == u then e.target_node_uuid else e.source_node_uuid

/-- The `rel_nodes` set of one uuid `u`: for each related edge take
`other = tu if su == u else su` and keep it when it is truthy and in
`node_lookup` (a Python set, modelled as first-occurrence dedup). -/
def relatedNodeIds (nodes : List LocalNeo4jGraphStore.NodeOut)
    (relEdges : List LocalNeo4jGraphStore.EdgeOut) (u : String) : List String :=
  relEdges.foldl (fun acc e =>
    let other := edgeOtherEnd e u
    if other != "" && (nodeLookup nodes other).isSome then insertDedup acc other
    else acc) []

/-- The `EntityNode` built for one filtered node row (body of the
`for n in filtered_nodes` loop of `filter_defined_entities`). -/
def entityNodeOf (nodes : List LocalNeo4jGraphStore.NodeOut)
    (edges : List LocalNeo4jGraphStore.EdgeOut) (fu : List String)
    (enrich_with_edges : Bool) (n : LocalNeo4jGraphStore.NodeOut) : EntityNodeM :=
  let u := n.uuid
  let relEdges :=
    if enrich_with_edges then relatedEdgesFor fu edges u else []
  let relNodes :=
    if enrich_with_edges then
      (relatedNodeIds nodes relEdges u).filterMap (nodeLookup nodes)
    else []
  { uuid := u
    name := pyOrStr n.name ""
    labels := if n.labels = [] then ["Entity"] else n.labels
    summary := pyOrStr n.summary ""
    attributes := n.attributes
    related_edges := relEdges
    related_nodes := relNodes }

namespace LocalEntityReader

open LocalNeo4jGraphStore

/-- `LocalEntityReader.filter_defined_entities`. -/
def filter_defined_entities (graph_id : String)
    (defined_entity_types : Option (List String)) (enrich_with_edges : Bool)
    (st : Neo4jState) : FilteredEntitiesM :=
  let graph_data := get_graph_data graph_id st
  let nodes := graph_data.nodes
  let edges := graph_data.edges
  let total_count := nodes.length
  let filtered_nodes := nodes.filter (fun n =>
    match defined_entity_types with
    | some l =>
      if l ≠ [] then
        match entityTypeOfNode n with
        | some et => l.contains et
        | none => false
      else true
    | none => true)
  let entity_types := nodes.foldl (fun acc n =>
    match entityTypeOfNode n with
    | some et => insertDedup acc et
    | none => acc) []
  let filtered_uuids := filtered_nodes.filterMap (fun n =>
    if n.uuid = "" then none else some n.uuid)
  let entities : List EntityNodeM :=
    filtered_nodes.map (entityNodeOf nodes edges filtered_uuids enrich_with_edges)
  { entities := entities
    entity_types := entity_types
    total_count := total_count
    filtered_count := entities.length }

/-- `LocalEntityReader.get_entity_with_context`: unfiltered, enriched pass
over the graph, then a linear search for the requested uuid. -/
def get_entity_with_context (graph_id entity_uuid : String)
    (st : Neo4jState) : Option EntityNodeM :=
  (filter_defined_entities graph_id none true st).entities.find?
    (fun e => e.uuid == entity_uuid)

end LocalEntityReader

/-! ## Shared helper lemmas -/

/-- Mapping a function that fixes every element of a list fixes the list. -/
theorem map_self_of_fixes {α : Type} (l : List α) (f : α → α)
    (h : ∀ a ∈ l, f a = a) : l.map f = l := by
  induction l with
  | nil => rfl
  | cons x xs ih =>
    simp only [List.map_cons, h x (by simp)]
    rw [ih (fun a ha => h a (by simp [ha]))]

/-- `pyOrStr s ""` is the identity. -/
theorem pyOrStr_empty (s : String) : pyOrStr s "" = s := by
  unfold pyOrStr
  split <;> simp_all

/-! ## Claim theorems -/

@[simp]
theorem cypherCoalesce_some {α : Type} (x : α) (o : Option α) :
    cypherCoalesce (some x) o = some x := rfl

@[simp]
theorem cypherCoalesce_none {α : Type} (o : Option α) :
    cypherCoalesce none o = o := rfl

/-- Two strings that agree letterwise up to letter case. -/
def caseVariant (s₁ s₂ : String) : Prop :=
  s₁.data.map Char.toLower = s₂.data.map Char.toLower

instance (s₁ s₂ : String) : Decidable (caseVariant s₁ s₂) := by
  unfold caseVariant; infer_instance

/-- C1: `_stable_entity_uuid` is a pure total function of
`(project_id, entity_type, name)`; two names that differ only in
surrounding whitespace or letter case (equal after trim plus case fold)
resolve to the same identity key; a `None` name resolves exactly like the
empty name, and every input yields an `"ent_"`-prefixed identity. -/
theorem stable_entity_uuid_resolver_spec
    (sha1hex16 : String → String) (project_id entity_type : String)
    (n₁ n₂ : Option String)
    (h : caseVariant (pyStrip (n₁.getD "")) (pyStrip (n₂.getD ""))) :
    _stable_entity_uuid sha1hex16 project_id entity_type n₁ =
      _stable_entity_uuid sha1hex16 project_id entity_type n₂ ∧
    _stable_entity_uuid sha1hex16 project_id entity_type none =
      _stable_entity_uuid sha1hex16 project_id entity_type (some "") ∧
    ∃ digest, _stable_entity_uuid sha1hex16 project_id entity_type n₁ =
      "ent_" ++ digest := by
  refine ⟨?_, rfl, ⟨_, rfl⟩⟩
  unfold _stable_entity_uuid pyLower
  have h' : (pyStrip (n₁.getD "")).data.map Char.toLower =
      (pyStrip (n₂.getD "")).data.map Char.toLower := h
  rw [h']

/-- The entity-sanitation step drops exactly the records with a missing or
empty name or type, or (for a non-empty allowed set) a disallowed type. -/
theorem cleanEntity_none_iff (et : List String) (o : Option RawEntity) :
    cleanEntity et o = none ↔
      o.bind RawEntity.name = none ∨ o.bind RawEntity.name = some "" ∨
      o.bind RawEntity.type = none ∨ o.bind RawEntity.type = some "" ∨
      (et ≠ [] ∧ ∀ t, o.bind RawEntity.type = some t → t ∉ et) := by
  unfold cleanEntity
  cases hn : o.bind RawEntity.name with
  | none => simp [hn]
  | some n =>
    cases ht : o.bind RawEntity.type with
    | none => simp [hn, ht]
    | some t =>
      simp only [hn, ht, Option.some.injEq, reduceCtorEq, false_or,
        forall_eq']
      split_ifs with h1 h2 <;> (simp_all; all_goals tauto)

/-- A surviving sanitized entity is the stripped original with defaulted
summary and attributes. -/
theorem cleanEntity_some_spec (et : List String) (o : Option RawEntity)
    (c : CleanEntity) (h : cleanEntity et o = some c) :
    (∃ n, o.bind RawEntity.name = some n ∧ n ≠ "" ∧ c.name = pyStrip n) ∧
    (∃ t, o.bind RawEntity.type = some t ∧ t ≠ "" ∧ c.type = pyStrip t) ∧
    c.summary = pyStrip (pyOrOptStr (o.bind RawEntity.summary) "") ∧
    c.attributes = (o.bind RawEntity.attributes).getD [] := by
  unfold cleanEntity at h
  cases hn : o.bind RawEntity.name
  all_goals rw [hn] at h
  · simp at h
  cases ht : o.bind RawEntity.type
  all_goals rw [ht] at h
  · simp at h
  dsimp only at h
  split_ifs at h with h1 h2
  rw [Option.some.injEq] at h
  subst h
  push_neg at h1
  exact ⟨⟨_, rfl, h1.1, rfl⟩, ⟨_, rfl, h1.2, rfl⟩, rfl, rfl⟩

/-- The relation-sanitation step drops exactly the records with a missing
or empty source, target, source type, target type, or relation label, or
(for a non-empty allowed set) a disallowed label. -/
theorem cleanRelation_none_iff (ets : List String) (o : Option RawRelation) :
    cleanRelation ets o = none ↔
      o.bind RawRelation.source = none ∨ o.bind RawRelation.source = some "" ∨
      o.bind RawRelation.target = none ∨ o.bind RawRelation.target = some "" ∨
      o.bind RawRelation.source_type = none ∨
      o.bind RawRelation.source_type = some "" ∨
      o.bind RawRelation.target_type = none ∨
      o.bind RawRelation.target_type = some "" ∨
      o.bind RawRelation.relation = none ∨ o.bind RawRelation.relation = some "" ∨
      (ets ≠ [] ∧ ∀ r, o.bind RawRelation.relation = some r → r ∉ ets) := by
  unfold cleanRelation
  cases hs : o.bind RawRelation.source with
  | none => simp [hs]
  | some s =>
    cases ht : o.bind RawRelation.target with
    | none => simp [hs, ht]
    | some t =>
      cases hst : o.bind RawRelation.source_type with
      | none => simp [hs, ht, hst]
      | some st =>
        cases htt : o.bind RawRelation.target_type with
        | none => simp [hs, ht, hst, htt]
        | some tt =>
          cases hr : o.bind RawRelation.relation with
          | none => simp [hs, ht, hst, htt, hr]
          | some rn =>
            simp only [hs, ht, hst, htt, hr, Option.some.injEq,
              reduceCtorEq, false_or, forall_eq']
            split_ifs with h1 h2 <;> (simp_all; all_goals tauto)

/-- A surviving sanitized relation is the stripped original with defaulted
fact and attributes. -/
theorem cleanRelation_some_spec (ets : List String) (o : Option RawRelation)
    (c : CleanRelation) (h : cleanRelation ets o = some c) :
    (∃ s, o.bind RawRelation.source = some s ∧ s ≠ "" ∧ c.source = pyStrip s) ∧
    (∃ t, o.bind RawRelation.target = some t ∧ t ≠ "" ∧ c.target = pyStrip t) ∧
    (∃ st, o.bind RawRelation.source_type = some st ∧ st ≠ "" ∧
      c.source_type = pyStrip st) ∧
    (∃ tt, o.bind RawRelation.target_type = some tt ∧ tt ≠ "" ∧
      c.target_type = pyStrip tt) ∧
    (∃ rn, o.bind RawRelation.relation = some rn ∧ rn ≠ "" ∧
      c.relation = pyStrip rn) ∧
    c.fact = pyStrip (pyOrOptStr (o.bind RawRelation.fact) "") ∧
    c.attributes = (o.bind RawRelation.attributes).getD [] := by
  unfold cleanRelation at h
  cases hs : o.bind RawRelation.source
  all_goals rw [hs] at h
  · simp at h
  cases ht : o.bind RawRelation.target
  all_goals rw [ht] at h
  · simp at h
  cases hst : o.bind RawRelation.source_type
  all_goals rw [hst] at h
  · simp at h
  cases htt : o.bind RawRelation.target_type
  all_goals rw [htt] at h
  · simp at h
  cases hr : o.bind RawRelation.relation
  all_goals rw [hr] at h
  · simp at h
  dsimp only at h
  split_ifs at h with h1 h2
  rw [Option.some.injEq] at h
  subst h
  push_neg at h1
  exact ⟨⟨_, rfl, h1.1, rfl⟩, ⟨_, rfl, h1.2.1, rfl⟩, ⟨_, rfl, h1.2.2.1, rfl⟩,
    ⟨_, rfl, h1.2.2.2.1, rfl⟩, ⟨_, rfl, h1.2.2.2.2, rfl⟩, rfl, rfl⟩

/-- C8: the extraction sanitizer drops every entity missing a name or type
or with a type outside a non-empty allowed entity-type set, and every
relation missing source, target, source type, target type, or relation
label or with a label outside a non-empty allowed set; every surviving
record is trimmed, with missing summary/fact defaulting to the empty
string and missing attributes to the empty map; a successful LLM reply is
sanitized exactly record by record. -/
theorem extract_sanitizer_spec :
    (∀ et o, cleanEntity et o = none ↔
      o.bind RawEntity.name = none ∨ o.bind RawEntity.name = some "" ∨
      o.bind RawEntity.type = none ∨ o.bind RawEntity.type = some "" ∨
      (et ≠ [] ∧ ∀ t, o.bind RawEntity.type = some t → t ∉ et)) ∧
    (∀ et o c, cleanEntity et o = some c →
      (∃ n, o.bind RawEntity.name = some n ∧ n ≠ "" ∧ c.name = pyStrip n) ∧
      (∃ t, o.bind RawEntity.type = some t ∧ t ≠ "" ∧ c.type = pyStrip t) ∧
      c.summary = pyStrip (pyOrOptStr (o.bind RawEntity.summary) "") ∧
      c.attributes = (o.bind RawEntity.attributes).getD []) ∧
    (∀ ets o, cleanRelation ets o = none ↔
      o.bind RawRelation.source = none ∨ o.bind RawRelation.source = some "" ∨
      o.bind RawRelation.target = none ∨ o.bind RawRelation.target = some "" ∨
      o.bind RawRelation.source_type = none ∨
      o.bind RawRelation.source_type = some "" ∨
      o.bind RawRelation.target_type = none ∨
      o.bind RawRelation.target_type = some "" ∨
      o.bind RawRelation.relation = none ∨ o.bind RawRelation.relation = some "" ∨
      (ets ≠ [] ∧ ∀ r, o.bind RawRelation.relation = some r → r ∉ ets)) ∧
    (∀ ets o c, cleanRelation ets o = some c →
      (∃ s, o.bind RawRelation.source = some s ∧ s ≠ "" ∧ c.source = pyStrip s) ∧
      (∃ t, o.bind RawRelation.target = some t ∧ t ≠ "" ∧ c.target = pyStrip t) ∧
      (∃ st, o.bind RawRelation.source_type = some st ∧ st ≠ "" ∧
        c.source_type = pyStrip st) ∧
      (∃ tt, o.bind RawRelation.target_type = some tt ∧ tt ≠ "" ∧
        c.target_type = pyStrip tt) ∧
      (∃ rn, o.bind RawRelation.relation = some rn ∧ rn ≠ "" ∧
        c.relation = pyStrip rn) ∧
      c.fact = pyStrip (pyOrOptStr (o.bind RawRelation.fact) "") ∧
      c.attributes = (o.bind RawRelation.attributes).getD []) ∧
    (∀ ont raw, LocalGraphExtractor.extract (.ok raw) ont = .ok
      { entities := (raw.entities.getD []).filterMap
          (cleanEntity (allowedNames ont.entity_types))
        relations := (raw.relations.getD []).filterMap
          (cleanRelation (allowedNames ont.edge_types)) }) :=
  ⟨cleanEntity_none_iff, cleanEntity_some_spec, cleanRelation_none_iff,
    cleanRelation_some_spec, fun _ _ => rfl⟩

/-- A concrete raw entity reply record used by witnesses. -/
def sampleRawEnt : Option RawEntity :=
  some { name := some " Bob ", type := some "Person" }

/-- The sanitized form of `sampleRawEnt`. -/
def sampleCleanEnt : CleanEntity :=
  { name := "Bob", type := "Person", summary := "", attributes := [] }

/-- Concrete instance of the C8 theorem on `sampleRawEnt`. -/
theorem extract_sanitizer_spec_witness :
    (∃ n, sampleRawEnt.bind RawEntity.name = some n ∧ n ≠ "" ∧
      sampleCleanEnt.name = pyStrip n) ∧
    (∃ t, sampleRawEnt.bind RawEntity.type = some t ∧ t ≠ "" ∧
      sampleCleanEnt.type = pyStrip t) ∧
    sampleCleanEnt.summary =
      pyStrip (pyOrOptStr (sampleRawEnt.bind RawEntity.summary) "") ∧
    sampleCleanEnt.attributes =
      (sampleRawEnt.bind RawEntity.attributes).getD [] :=
  extract_sanitizer_spec.2.1 ["Person"] sampleRawEnt sampleCleanEnt (by decide)

/-- Concrete instance of the C1 theorem: "  Alice " and "ALICE" share an
identity key. -/
theorem stable_entity_uuid_resolver_spec_witness :
    caseVariant (pyStrip ((some "  Alice ").getD ""))
        (pyStrip ((some "ALICE").getD "")) ∧
      _stable_entity_uuid (fun s => s) "proj" "Person" (some "  Alice ") =
        _stable_entity_uuid (fun s => s) "proj" "Person" (some "ALICE") :=
  ⟨by decide,
    (stable_entity_uuid_resolver_spec (fun s => s) "proj" "Person"
      (some "  Alice ") (some "ALICE") (by decide)).1⟩

/-! ### C2: upsert_entities merge policy -/

/-- A digest stand-in used by the concrete C2 scenario. -/
def c2sha : String → String := fun _ => "d0"

/-- An entity with a non-empty summary. -/
def c2ent1 : LocalEntity :=
  { project_id := "p", graph_id := "g", name := "Acme", entity_type := "Org"
    summary := "alpha", created_at := some "t0" }

/-- The same identity re-upserted with an empty summary. -/
def c2ent2 : LocalEntity := { c2ent1 with summary := "" }

/-- Store after the first upsert. -/
def c2st1 : Neo4jState :=
  (LocalNeo4jGraphStore.upsert_entities c2sha [c2ent1] "t0" emptyState).2

/-- Store after re-upserting the same identity with an empty summary. -/
def c2st2 : Neo4jState :=
  (LocalNeo4jGraphStore.upsert_entities c2sha [c2ent2] "t1" c2st1).2

/-- C2 counterexample: the fill-if-blank part of the claim is false.
`SET e.summary = COALESCE($summary, e.summary)` receives
`$summary = ent.summary or ""`, which is never `NULL`, so re-upserting the
same identity with an empty summary overwrites the previously non-empty
stored summary "alpha" with "". -/
theorem upsert_entities_fill_if_blank_counterexample :
    c2st1.entities.map EntityRec.summary = [some "alpha"] ∧
    c2st2.entities.map EntityRec.summary = [some ""] := by
  constructor <;> rfl

/-- `upsert_entities` on a one-element batch is one `upsertOneEntity` step. -/
theorem upsert_entities_singleton (sha : String → String) (ent : LocalEntity)
    (now : String) (st : Neo4jState) :
    LocalNeo4jGraphStore.upsert_entities sha [ent] now st =
      ([ent.uuid sha], LocalNeo4jGraphStore.upsertOneEntity sha ent now st) := rfl

/-- `MERGE` with no matching uuid appends a freshly `SET` node. -/
theorem upsertOneEntity_new (sha : String → String) (ent : LocalEntity)
    (now : String) (st : Neo4jState)
    (hany : (st.entities.any fun e => e.uuid == ent.uuid sha) = false) :
    LocalNeo4jGraphStore.upsertOneEntity sha ent now st =
      { st with entities := st.entities ++
          [LocalNeo4jGraphStore.setEntityClause ent now { uuid := ent.uuid sha }] } := by
  unfold LocalNeo4jGraphStore.upsertOneEntity
  simp [hany]

/-- `MERGE` with a matching uuid applies the `SET` clause to every match. -/
theorem upsertOneEntity_existing (sha : String → String) (ent : LocalEntity)
    (now : String) (st : Neo4jState)
    (hany : (st.entities.any fun e => e.uuid == ent.uuid sha) = true) :
    LocalNeo4jGraphStore.upsertOneEntity sha ent now st =
      { st with entities := st.entities.map (fun e =>
          if e.uuid == ent.uuid sha then
            LocalNeo4jGraphStore.setEntityClause ent now e
          else e) } := by
  unfold LocalNeo4jGraphStore.upsertOneEntity
  simp [hany]

/-- The `SET` clause preserves the node uuid. -/
theorem setEntityClause_uuid (ent : LocalEntity) (now : String) (e : EntityRec) :
    (LocalNeo4jGraphStore.setEntityClause ent now e).uuid = e.uuid := rfl

/-- Re-applying the `SET` clause of the same entity changes nothing
(`created_at` is already set, every other column receives the same
parameter again). -/
theorem setEntityClause_idem (ent : LocalEntity) (now now2 : String)
    (e : EntityRec) :
    LocalNeo4jGraphStore.setEntityClause ent now2
        (LocalNeo4jGraphStore.setEntityClause ent now e) =
      LocalNeo4jGraphStore.setEntityClause ent now e := by
  unfold LocalNeo4jGraphStore.setEntityClause
  cases e with
  | mk u p g n t sm a c => cases c <;> cases ent.created_at <;> simp [cypherCoalesce]

/-- C2 (amended): upserting the same entity twice yields exactly one node
and the second call leaves the store unchanged; but descriptive fields are
last-writer-wins, not fill-if-blank — any upsert sets the stored summary
and attributes to the incoming values (so an incoming empty summary
overwrites a stored non-empty one), and only `created_at` is preserved. -/
theorem upsert_entities_idempotent_last_writer_wins
    (sha : String → String) (ent : LocalEntity) (now now2 : String)
    (st : Neo4jState)
    (hfresh : ∀ e ∈ st.entities, e.uuid ≠ ent.uuid sha) :
    ((LocalNeo4jGraphStore.upsert_entities sha [ent] now st).2.entities.countP
        (fun e => e.uuid == ent.uuid sha) = 1
      ∧ (LocalNeo4jGraphStore.upsert_entities sha [ent] now2
          (LocalNeo4jGraphStore.upsert_entities sha [ent] now st).2).2 =
        (LocalNeo4jGraphStore.upsert_entities sha [ent] now st).2)
    ∧ ∀ (ent2 : LocalEntity) (st2 : Neo4jState) (e : EntityRec),
        e ∈ (LocalNeo4jGraphStore.upsertOneEntity sha ent2 now2 st2).entities →
        e.uuid = ent2.uuid sha →
        e.summary = some (pyOrStr ent2.summary "") ∧
        e.attributes_json = some (ent2.attributes.getD []) := by
  have hany : (st.entities.any fun e => e.uuid == ent.uuid sha) = false := by
    rw [List.any_eq_false]
    intro e he
    simp [hfresh e he]
  constructor
  · rw [upsert_entities_singleton, upsertOneEntity_new sha ent now st hany]
    constructor
    · simp only [List.countP_append]
      have h0 : st.entities.countP (fun e => e.uuid == ent.uuid sha) = 0 := by
        rw [List.countP_eq_zero]
        intro e he
        simp [hfresh e he]
      rw [h0]
      simp [List.countP_cons, LocalNeo4jGraphStore.setEntityClause]
    · rw [upsert_entities_singleton]
      have hany2 :
          ((st.entities ++
            [LocalNeo4jGraphStore.setEntityClause ent now { uuid := ent.uuid sha }]).any
              (fun e => e.uuid == ent.uuid sha)) = true := by
        simp [LocalNeo4jGraphStore.setEntityClause]
      rw [upsertOneEntity_existing sha ent now2 _ hany2]
      simp only
      congr 1
      rw [List.map_append]
      have hm1 : st.entities.map (fun e =>
          if e.uuid == ent.uuid sha then
            LocalNeo4jGraphStore.setEntityClause ent now2 e
          else e) = st.entities := by
        apply map_self_of_fixes
        intro e he
        simp [hfresh e he]
      have hm2 : ([LocalNeo4jGraphStore.setEntityClause ent now { uuid := ent.uuid sha }].map
          (fun e => if e.uuid == ent.uuid sha then
            LocalNeo4jGraphStore.setEntityClause ent now2 e
          else e)) =
          [LocalNeo4jGraphStore.setEntityClause ent now { uuid := ent.uuid sha }] := by
        simp only [List.map_cons, List.map_nil, setEntityClause_uuid]
        rw [if_pos (by simp)]
        rw [setEntityClause_idem]
      rw [hm1, hm2]
  · intro ent2 st2 e he hu
    by_cases hin : (st2.entities.any fun e => e.uuid == ent2.uuid sha) = true
    · rw [upsertOneEntity_existing sha ent2 now2 st2 hin] at he
      simp only [List.mem_map] at he
      obtain ⟨e0, _, rfl⟩ := he
      by_cases h0 : (e0.uuid == ent2.uuid sha) = true
      · rw [if_pos h0]
        exact ⟨rfl, rfl⟩
      · rw [if_neg h0] at hu ⊢
        exact absurd hu (by simpa using h0)
    · have hin' : (st2.entities.any fun e => e.uuid == ent2.uuid sha) = false := by
        simpa using hin
      rw [upsertOneEntity_new sha ent2 now2 st2 hin'] at he
      simp only [List.mem_append, List.mem_singleton] at he
      rcases he with he | rfl
      · exfalso
        rw [List.any_eq_false] at hin'
        have hne : ¬ e.uuid = ent2.uuid sha := by simpa using hin' e he
        exact hne hu
      · exact ⟨rfl, rfl⟩

/-- Concrete instance of the amended C2 theorem on an empty store. -/
theorem upsert_entities_idempotent_last_writer_wins_witness :
    (LocalNeo4jGraphStore.upsert_entities c2sha [c2ent1] "t0" emptyState).2.entities.countP
        (fun e => e.uuid == c2ent1.uuid c2sha) = 1
    ∧ (LocalNeo4jGraphStore.upsert_entities c2sha [c2ent1] "t1"
        (LocalNeo4jGraphStore.upsert_entities c2sha [c2ent1] "t0" emptyState).2).2 =
      (LocalNeo4jGraphStore.upsert_entities c2sha [c2ent1] "t0" emptyState).2 :=
  (upsert_entities_idempotent_last_writer_wins c2sha c2ent1 "t0" "t1" emptyState
    (fun e he => absurd he (by simp [emptyState]))).1

/-! ### C3: graph-id scoping of writes -/

/-- A digest stand-in used by the concrete C3 scenario. -/
def c3sha : String → String := fun _ => "feed"

/-- Graph A, created in project "p". -/
def c3gA : String × Neo4jState :=
  LocalNeo4jGraphStore.create_graph "p" "A" none "a" "t" emptyState

/-- Graph B, created in the same project. -/
def c3gB : String × Neo4jState :=
  LocalNeo4jGraphStore.create_graph "p" "B" none "b" "t" c3gA.2

/-- The entity ("Person", "Alice") written into graph A. -/
def c3entA : LocalEntity :=
  { project_id := "p", graph_id := c3gA.1, name := "Alice"
    entity_type := "Person", created_at := some "t" }

/-- The same (project, type, name) entity written into graph B. -/
def c3entB : LocalEntity := { c3entA with graph_id := c3gB.1 }

/-- Store after upserting Alice into graph A. -/
def c3stA : Neo4jState :=
  (LocalNeo4jGraphStore.upsert_entities c3sha [c3entA] "t" c3gB.2).2

/-- Store after also upserting Alice into graph B. -/
def c3stB : Neo4jState :=
  (LocalNeo4jGraphStore.upsert_entities c3sha [c3entB] "t2" c3stA).2

/-- C3: the claimed write isolation is violated.  The entity identity key
ignores the graph id and `upsert_entities` does `SET e.graph_id`, so
upserting the same (project, type, name) entity into a second graph B
re-assigns the single shared node: graph A had one node before the write
to B and zero nodes afterwards, although the two graph ids differ. -/
theorem upsert_to_other_graph_steals_node :
    (LocalNeo4jGraphStore.get_graph_data c3gA.1 c3stA).node_count = 1 ∧
    (LocalNeo4jGraphStore.get_graph_data c3gA.1 c3stB).node_count = 0 ∧
    (LocalNeo4jGraphStore.get_graph_data c3gB.1 c3stB).node_count = 1 ∧
    c3gA.1 ≠ c3gB.1 := by
  refine ⟨rfl, rfl, rfl, by decide⟩

/-! ### C9: delete_graph cascade and idempotence -/

/-- Statement 2 of `delete_graph` filters the entities by graph id. -/
theorem stmt2_entities (gid : String) (st : Neo4jState) :
    (LocalNeo4jGraphStore.deleteGraphStmt2 gid st).entities =
      st.entities.filter (fun e => !(e.graph_id == some gid)) := rfl

/-- After `delete_graph`, no remaining entity carries the deleted graph
id. -/
theorem delete_graph_entities_gone (gid : String) (st : Neo4jState) :
    ∀ e ∈ (LocalNeo4jGraphStore.delete_graph gid st).entities,
      (e.graph_id == some gid) = false := by
  intro e he
  have h2 : e ∈ (LocalNeo4jGraphStore.deleteGraphStmt2 gid
      (LocalNeo4jGraphStore.deleteGraphStmt1 gid st)).entities := he
  rw [stmt2_entities] at h2
  simpa using (List.mem_filter.mp h2).2

/-- After `delete_graph`, no remaining graph meta node carries the deleted
graph id. -/
theorem delete_graph_graphs_gone (gid : String) (st : Neo4jState) :
    ∀ g ∈ (LocalNeo4jGraphStore.delete_graph gid st).graphs,
      (g.graph_id == gid) = false := by
  intro g hg
  have h1 : g ∈ (LocalNeo4jGraphStore.deleteGraphStmt1 gid st).graphs := hg
  unfold LocalNeo4jGraphStore.deleteGraphStmt1 at h1
  by_cases hguard : (st.graphs.any fun g => g.graph_id == gid) = true
  · rw [if_pos hguard] at h1
    have h2 : g ∈ st.graphs.filter (fun g => !(g.graph_id == gid)) := h1
    simpa using (List.mem_filter.mp h2).2
  · rw [if_neg hguard] at h1
    have hall : (st.graphs.any fun g => g.graph_id == gid) = false := by
      simpa using hguard
    rw [List.any_eq_false] at hall
    simpa using hall g h1

/-- After `delete_graph`, no remaining chunk carries the deleted graph
id. -/
theorem delete_graph_chunks_gone (gid : String) (st : Neo4jState) :
    ∀ c ∈ (LocalNeo4jGraphStore.delete_graph gid st).chunks,
      (c.graph_id == some gid) = false := by
  intro c hc
  have h3 : c ∈ (LocalNeo4jGraphStore.deleteGraphStmt2 gid
      (LocalNeo4jGraphStore.deleteGraphStmt1 gid st)).chunks.filter
        (fun c => !(c.graph_id == some gid)) := hc
  simpa using (List.mem_filter.mp h3).2

/-- `delete_graph` on a store holding nothing with the given graph id is
the identity. -/
theorem deleteGraph_noop (gid : String) (st : Neo4jState)
    (hg : ∀ g ∈ st.graphs, (g.graph_id == gid) = false)
    (he : ∀ e ∈ st.entities, (e.graph_id == some gid) = false)
    (hc : ∀ c ∈ st.chunks, (c.graph_id == some gid) = false) :
    LocalNeo4jGraphStore.delete_graph gid st = st := by
  unfold LocalNeo4jGraphStore.delete_graph
  have h1 : LocalNeo4jGraphStore.deleteGraphStmt1 gid st = st := by
    unfold LocalNeo4jGraphStore.deleteGraphStmt1
    rw [if_neg]
    rw [Bool.not_eq_true, List.any_eq_false]
    intro g hgm
    simp [hg g hgm]
  rw [h1]
  have h2 : LocalNeo4jGraphStore.deleteGraphStmt2 gid st = st := by
    have hdelu : ∀ u,
        (st.entities.any fun e => e.graph_id == some gid && e.uuid == u) = false := by
      intro u
      rw [List.any_eq_false]
      intro e hm
      simp [he e hm]
    cases st with
    | mk gr en ch rl mn hk =>
      unfold LocalNeo4jGraphStore.deleteGraphStmt2
      simp only
      congr 1
      · exact List.filter_eq_self.mpr (fun e hm => by simp [he e hm])
      · exact List.filter_eq_self.mpr (fun r _ => by simp [hdelu])
      · exact List.filter_eq_self.mpr (fun m _ => by simp [hdelu])
  rw [h2]
  have h3 : LocalNeo4jGraphStore.deleteGraphStmt3 gid st = st := by
    have hdelc : ∀ cid,
        (st.chunks.any fun c => c.graph_id == some gid && c.chunk_id == cid) = false := by
      intro cid
      rw [List.any_eq_false]
      intro c hm
      simp [hc c hm]
    cases st with
    | mk gr en ch rl mn hk =>
      unfold LocalNeo4jGraphStore.deleteGraphStmt3
      simp only
      congr 1
      · exact List.filter_eq_self.mpr (fun c hm => by simp [hc c hm])
      · exact List.filter_eq_self.mpr (fun m _ => by simp [hdelc])
      · exact List.filter_eq_self.mpr (fun h _ => by simp [hdelc])
  exact h3

/-- C9: `delete_graph` cascades — afterwards `get_graph_data` on that graph
id returns zero nodes and zero edges — and is idempotent: a second call on
the same id, or a call on an id the store never contained, is a no-op (and,
being a total function, never raises). -/
theorem delete_graph_cascade_idempotent (st : Neo4jState) (gid : String) :
    ((LocalNeo4jGraphStore.get_graph_data gid
        (LocalNeo4jGraphStore.delete_graph gid st)).nodes = [] ∧
      (LocalNeo4jGraphStore.get_graph_data gid
        (LocalNeo4jGraphStore.delete_graph gid st)).edges = []) ∧
    LocalNeo4jGraphStore.delete_graph gid (LocalNeo4jGraphStore.delete_graph gid st) =
      LocalNeo4jGraphStore.delete_graph gid st ∧
    ((∀ g ∈ st.graphs, (g.graph_id == gid) = false) →
     (∀ e ∈ st.entities, (e.graph_id == some gid) = false) →
     (∀ c ∈ st.chunks, (c.graph_id == some gid) = false) →
     LocalNeo4jGraphStore.delete_graph gid st = st) := by
  have he := delete_graph_entities_gone gid st
  constructor
  · have hfil : (LocalNeo4jGraphStore.delete_graph gid st).entities.filter
        (fun e => e.graph_id == some gid) = [] :=
      List.filter_eq_nil_iff.mpr (fun e hm => by simp [he e hm])
    constructor
    · show LocalNeo4jGraphStore.nodesQuery gid (LocalNeo4jGraphStore.delete_graph gid st) = []
      unfold LocalNeo4jGraphStore.nodesQuery
      rw [hfil]
      rfl
    · show LocalNeo4jGraphStore.edgesQuery gid (LocalNeo4jGraphStore.delete_graph gid st) _ = []
      unfold LocalNeo4jGraphStore.edgesQuery
      apply List.filterMap_eq_nil_iff.mpr
      intro r _
      by_cases hid : (r.graph_id == some gid) = true
      · rw [if_pos hid]
        have hfind : (LocalNeo4jGraphStore.delete_graph gid st).entities.find?
            (fun e => e.uuid == r.source_uuid && e.graph_id == some gid) = none := by
          rw [List.find?_eq_none]
          intro e hm
          simp [he e hm]
        rw [hfind]
      · rw [if_neg hid]
  · constructor
    · exact deleteGraph_noop gid (LocalNeo4jGraphStore.delete_graph gid st)
        (delete_graph_graphs_gone gid st) he (delete_graph_chunks_gone gid st)
    · intro hg he' hc'
      exact deleteGraph_noop gid st hg he' hc'

/-- Concrete instance of the C9 theorem: deleting an id the store never
contained leaves the empty store unchanged. -/
theorem delete_graph_cascade_idempotent_witness :
    LocalNeo4jGraphStore.delete_graph "nope" emptyState = emptyState :=
  (delete_graph_cascade_idempotent emptyState "nope").2.2
    (fun g hg => absurd hg (by simp [emptyState]))
    (fun e he => absurd he (by simp [emptyState]))
    (fun c hc => absurd hc (by simp [emptyState]))

/-! ### C4: relations with unresolved endpoints are dropped, rest kept -/

/-- The chunk-local key of an entity in `uuid_by_key`. -/
def entityKey (e : LocalEntity) : String :=
  pyLower (e.entity_type ++ ":" ++ e.name)

/-- A key with no matching entity resolves to nothing. -/
theorem uuid_by_key_none (sha : String → String) (entities : List LocalEntity)
    (k : String) (h : ∀ e ∈ entities, ¬ entityKey e = k) :
    uuid_by_key sha entities k = none := by
  unfold uuid_by_key
  rw [List.filter_eq_nil_iff.mpr (fun e hm => by simpa [entityKey] using h e hm)]
  rfl

/-- C4: in `build_graph_from_text`, a relation whose source or target
(type, name) pair — compared case-folded — matches no entity extracted from
the same chunk is silently dropped while the remaining relations are still
resolved; and `upsert_relations` skips a single relation whose endpoint
`MATCH` fails, still processing the rest of the batch. -/
theorem relations_unresolved_endpoints_dropped :
    (∀ (sha : String → String) (pid gid now : String)
        (entities : List LocalEntity) (r : CleanRelation)
        (rest : List CleanRelation),
      ((∀ e ∈ entities, ¬ entityKey e = pyLower (r.source_type ++ ":" ++ r.source)) ∨
       (∀ e ∈ entities, ¬ entityKey e = pyLower (r.target_type ++ ":" ++ r.target))) →
      resolveRelations sha pid gid now entities (r :: rest) =
        resolveRelations sha pid gid now entities rest) ∧
    (∀ (freshAt : Nat → String) (rel : LocalRelation)
        (rest : List LocalRelation) (now : String) (st : Neo4jState),
      ((st.entities.any fun e =>
          e.uuid == rel.source_uuid && e.graph_id == some rel.graph_id) = false ∨
       (st.entities.any fun e =>
          e.uuid == rel.target_uuid && e.graph_id == some rel.graph_id) = false) →
      LocalNeo4jGraphStore.upsert_relations freshAt (rel :: rest) now st =
        LocalNeo4jGraphStore.upsert_relations (fun i => freshAt (i + 1)) rest now st) := by
  constructor
  · intro sha pid gid now entities r rest h
    show List.filterMap _ (r :: rest) = List.filterMap _ rest
    rw [List.filterMap_cons]
    dsimp only
    rcases h with h | h
    · rw [uuid_by_key_none sha entities _ h]
    · cases hs : uuid_by_key sha entities (pyLower (r.source_type ++ ":" ++ r.source)) with
      | none => rw [uuid_by_key_none sha entities _ h]
      | some su => rw [uuid_by_key_none sha entities _ h]
  · intro freshAt rel rest now st h
    show LocalNeo4jGraphStore.upsert_relations _ rest now
        (LocalNeo4jGraphStore.upsertOneRelation rel (freshAt 0) now st) =
      LocalNeo4jGraphStore.upsert_relations _ rest now st
    have hskip : LocalNeo4jGraphStore.upsertOneRelation rel (freshAt 0) now st = st := by
      unfold LocalNeo4jGraphStore.upsertOneRelation
      rcases h with h | h <;> simp [h]
    rw [hskip]

/-- Concrete instance of the C4 theorem: a relation naming an entity
absent from the chunk resolves to nothing, and an `upsert_relations` batch
headed by a dangling relation degenerates to the rest of the batch. -/
theorem relations_unresolved_endpoints_dropped_witness :
    resolveRelations (fun s => s) "p" "g" "t"
        [{ project_id := "p", graph_id := "g", name := "A", entity_type := "T" }]
        [{ source := "B", source_type := "T", target := "A", target_type := "T"
           relation := "knows", fact := "", attributes := [] }] =
      resolveRelations (fun s => s) "p" "g" "t"
        [{ project_id := "p", graph_id := "g", name := "A", entity_type := "T" }] [] ∧
    LocalNeo4jGraphStore.upsert_relations (fun _ => "h")
        [{ project_id := "p", graph_id := "g", source_uuid := "ent_x"
           target_uuid := "ent_y", relation_name := "knows" }] "t" emptyState =
      LocalNeo4jGraphStore.upsert_relations (fun _ => "h") [] "t" emptyState :=
  ⟨relations_unresolved_endpoints_dropped.1 (fun s => s) "p" "g" "t" _ _ _
      (Or.inl (by decide)),
    relations_unresolved_endpoints_dropped.2 (fun _ => "h") _ _ "t" emptyState
      (Or.inl (by decide))⟩

/-! ### C7: quick_search graph fallback -/

/-- The vector phase of `quick_search` yields no facts: the store is
disabled, the search raised (and was caught), or every returned item has a
missing or empty text payload. -/
def vecYieldsNothing (v : VecOutcome) : Prop :=
  match v with
  | .disabled => True
  | .failed _ => True
  | .ok items => ∀ t ∈ items, t = none ∨ t = some ""

/-- C7: when the vector phase yields nothing, `quick_search` returns the
non-empty facts of the first `limit` edges of the graph, in edge-storage
order, and its fact list is empty exactly when every edge considered has an
empty fact. -/
theorem quick_search_graph_fallback (vec : VecOutcome) (st : Neo4jState)
    (graph_id query : String) (limit : Nat) (hv : vecYieldsNothing vec) :
    (quick_search vec st graph_id query limit).facts =
      ((LocalNeo4jGraphStore.get_graph_data graph_id st).edges.take limit).filterMap
        (fun e => if pyOrStr e.fact "" = "" then none else some (pyOrStr e.fact "")) ∧
    ((quick_search vec st graph_id query limit).facts = [] ↔
      ∀ e ∈ (LocalNeo4jGraphStore.get_graph_data graph_id st).edges.take limit,
        e.fact = "") := by
  have h0 : (match vec with
      | VecOutcome.ok items => items.filterMap (fun t =>
          match t with
          | some s => if s = "" then none else some s
          | none => none)
      | _ => ([] : List String)) = [] := by
    cases vec with
    | disabled => rfl
    | failed e => rfl
    | ok items =>
      exact List.filterMap_eq_nil_iff.mpr (fun t ht => by
        rcases hv t ht with rfl | rfl <;> simp)
  have hfacts : (quick_search vec st graph_id query limit).facts =
      ((LocalNeo4jGraphStore.get_graph_data graph_id st).edges.take limit).filterMap
        (fun e => if pyOrStr e.fact "" = "" then none else some (pyOrStr e.fact "")) := by
    unfold quick_search
    rw [h0]
    simp only [if_pos rfl]
    apply List.take_of_length_le
    exact le_trans (List.length_filterMap_le _ _)
      (le_trans (List.length_take_le _ _) (le_refl _))
  refine ⟨hfacts, ?_⟩
  rw [hfacts, List.filterMap_eq_nil_iff]
  constructor
  · intro h e he
    have := h e he
    by_cases hf : pyOrStr e.fact "" = ""
    · rw [pyOrStr_empty] at hf
      exact hf
    · rw [if_neg hf] at this
      exact absurd this (by simp)
  · intro h e he
    rw [if_pos (by rw [pyOrStr_empty]; exact h e he)]

/-- Concrete instance of the C7 theorem: with the vector store disabled
and an empty graph, `quick_search` returns no facts. -/
theorem quick_search_graph_fallback_witness :
    (quick_search VecOutcome.disabled emptyState "g" "q" 10).facts = [] :=
  (quick_search_graph_fallback VecOutcome.disabled emptyState "g" "q" 10
      trivial).2.mpr (fun e he => absurd he (by simp [emptyState, LocalNeo4jGraphStore.get_graph_data, LocalNeo4jGraphStore.nodesQuery, LocalNeo4jGraphStore.edgesQuery]))

/-! ### C5: extraction failure is fatal, vector failure is not -/

/-- `extract` re-raises an LLM failure unchanged. -/
theorem extract_error (msg : String) (ont : Ontology) :
    LocalGraphExtractor.extract (.error msg) ont = .error msg := rfl

/-- The sanitized value `extract` returns on a successful LLM reply. -/
def sanitizedExtraction (ont : Ontology) (raw : RawExtraction) : Extraction :=
  { entities := (raw.entities.getD []).filterMap
      (cleanEntity (allowedNames ont.entity_types))
    relations := (raw.relations.getD []).filterMap
      (cleanRelation (allowedNames ont.edge_types)) }

/-- `extract` on a successful LLM reply sanitizes and returns. -/
theorem extract_ok (raw : RawExtraction) (ont : Ontology) :
    LocalGraphExtractor.extract (.ok raw) ont = .ok (sanitizedExtraction ont raw) := rfl

/-- `upsertOneEntity` does not touch the chunk nodes. -/
theorem upsertOneEntity_chunks (sha : String → String) (ent : LocalEntity)
    (now : String) (st : Neo4jState) :
    (LocalNeo4jGraphStore.upsertOneEntity sha ent now st).chunks = st.chunks := by
  unfold LocalNeo4jGraphStore.upsertOneEntity
  dsimp only
  split <;> rfl

/-- `upsert_entities` does not touch the chunk nodes. -/
theorem upsert_entities_chunks (sha : String → String) (now : String) :
    ∀ (ents : List LocalEntity) (st : Neo4jState),
      (LocalNeo4jGraphStore.upsert_entities sha ents now st).2.chunks = st.chunks := by
  intro ents
  induction ents with
  | nil => intro st; rfl
  | cons e rest ih =>
    intro st
    show (LocalNeo4jGraphStore.upsert_entities sha rest now
        (LocalNeo4jGraphStore.upsertOneEntity sha e now st)).2.chunks = st.chunks
    rw [ih, upsertOneEntity_chunks]

/-- A fold whose step preserves the chunk nodes preserves them overall. -/
theorem foldl_chunks {α : Type} (f : Neo4jState → α → Neo4jState)
    (h : ∀ s a, (f s a).chunks = s.chunks) :
    ∀ (l : List α) (s : Neo4jState), (l.foldl f s).chunks = s.chunks := by
  intro l
  induction l with
  | nil => intro s; rfl
  | cons x xs ih => intro s; rw [List.foldl_cons, ih, h]

/-- `link_mentions` does not touch the chunk nodes. -/
theorem link_mentions_chunks (cid : String) (us : List String) (gid : String)
    (st : Neo4jState) :
    (LocalNeo4jGraphStore.link_mentions cid us gid st).chunks = st.chunks := by
  unfold LocalNeo4jGraphStore.link_mentions
  split
  · rfl
  · split
    · apply foldl_chunks
      intro s u
      split
      · dsimp only
        split <;> rfl
      · rfl
    · rfl

/-- `upsertOneRelation` does not touch the chunk nodes. -/
theorem upsertOneRelation_chunks (rel : LocalRelation) (freshHex now : String)
    (st : Neo4jState) :
    (LocalNeo4jGraphStore.upsertOneRelation rel freshHex now st).chunks = st.chunks := by
  unfold LocalNeo4jGraphStore.upsertOneRelation
  dsimp only
  split
  · split <;> rfl
  · rfl

/-- `upsert_relations` does not touch the chunk nodes. -/
theorem upsert_relations_chunks (now : String) :
    ∀ (rels : List LocalRelation) (freshAt : Nat → String) (st : Neo4jState),
      (LocalNeo4jGraphStore.upsert_relations freshAt rels now st).chunks = st.chunks := by
  intro rels
  induction rels with
  | nil => intro freshAt st; rfl
  | cons r rest ih =>
    intro freshAt st
    show (LocalNeo4jGraphStore.upsert_relations _ rest now
        (LocalNeo4jGraphStore.upsertOneRelation r (freshAt 0) now st)).chunks = st.chunks
    rw [ih, upsertOneRelation_chunks]

/-- `chunkIngest` does not touch the chunk nodes. -/
theorem chunkIngest_chunks (env : BuildEnv) (pid gid cid : String) (idx : Nat)
    (ex : Extraction) (st : Neo4jState) :
    (chunkIngest env pid gid cid idx ex st).chunks = st.chunks := by
  unfold chunkIngest
  rw [upsert_relations_chunks, link_mentions_chunks, upsert_entities_chunks]

/-- The graph-link half of `upsert_chunk` does not touch the chunk nodes. -/
theorem linkGraphChunk_chunks (gid cid : String) (st : Neo4jState) :
    (LocalNeo4jGraphStore.linkGraphChunk gid cid st).chunks = st.chunks := by
  unfold LocalNeo4jGraphStore.linkGraphChunk
  split
  · dsimp only
    split <;> rfl
  · rfl

/-- Every chunk record present after `upsert_chunk` carries either an id
that was already present or the freshly written id. -/
theorem upsert_chunk_chunk_ids (pid gid cid text now : String) (st : Neo4jState) :
    ∀ c ∈ (LocalNeo4jGraphStore.upsert_chunk pid gid cid text now st).chunks,
      c.chunk_id ∈ st.chunks.map ChunkRec.chunk_id ∨ c.chunk_id = cid := by
  intro c hc
  rw [show (LocalNeo4jGraphStore.upsert_chunk pid gid cid text now st).chunks =
      (LocalNeo4jGraphStore.upsertChunkNode pid gid cid text now st).chunks from
    linkGraphChunk_chunks gid cid _] at hc
  unfold LocalNeo4jGraphStore.upsertChunkNode at hc
  split at hc
  · simp only [List.mem_map] at hc
    obtain ⟨c0, hc0, rfl⟩ := hc
    split
    · left
      exact List.mem_map.mpr ⟨c0, hc0, rfl⟩
    · left
      exact List.mem_map.mpr ⟨c0, hc0, rfl⟩
  · simp only [List.mem_append, List.mem_singleton] at hc
    rcases hc with hc | rfl
    · exact Or.inl (List.mem_map.mpr ⟨c, hc, rfl⟩)
    · exact Or.inr rfl

/-- Unfolding one loop iteration whose extraction fails. -/
theorem buildChunksLoop_cons_error (env : BuildEnv) (pid gid : String)
    (ont : Ontology) (nchunks total : Nat) (chunk : String) (rest : List String)
    (idx : Nat) (st : Neo4jState) (vst : List (String × String)) (msg : String)
    (hllm : env.llm idx = .error msg) :
    buildChunksLoop env pid gid ont nchunks total (chunk :: rest) idx st vst =
      ⟨(if env.hasCallback then
          [(chunkProgressLabel idx nchunks, chunkProgressValue idx total)]
        else []),
        .error msg,
        LocalNeo4jGraphStore.upsert_chunk pid gid ("chunk_" ++ env.chunkHex idx)
          chunk env.now st,
        vecStep env idx ("chunk_" ++ env.chunkHex idx) chunk vst⟩ := by
  simp only [buildChunksLoop]
  rw [hllm]
  rfl

/-- Unfolding one loop iteration whose extraction succeeds. -/
theorem buildChunksLoop_cons_ok (env : BuildEnv) (pid gid : String)
    (ont : Ontology) (nchunks total : Nat) (chunk : String) (rest : List String)
    (idx : Nat) (st : Neo4jState) (vst : List (String × String))
    (raw : RawExtraction) (hllm : env.llm idx = .ok raw) :
    buildChunksLoop env pid gid ont nchunks total (chunk :: rest) idx st vst =
      (let r := buildChunksLoop env pid gid ont nchunks total rest (idx + 1)
        (chunkIngest env pid gid ("chunk_" ++ env.chunkHex idx) idx
          (sanitizedExtraction ont raw)
          (LocalNeo4jGraphStore.upsert_chunk pid gid ("chunk_" ++ env.chunkHex idx)
            chunk env.now st))
        (vecStep env idx ("chunk_" ++ env.chunkHex idx) chunk vst)
      ⟨(if env.hasCallback then
          [(chunkProgressLabel idx nchunks, chunkProgressValue idx total)]
        else []) ++ r.events, r.outcome, r.store, r.vectors⟩) := by
  simp only [buildChunksLoop]
  rw [hllm]
  rfl

/-- A failing extraction at relative position `k` aborts the loop with the
triggering error, and only the chunks up to and including position `k` have
been written. -/
theorem buildChunksLoop_error_spec (env : BuildEnv) (pid gid : String)
    (ont : Ontology) (nchunks total : Nat) :
    ∀ (l : List String) (k idx : Nat) (st : Neo4jState)
      (vst : List (String × String)) (msg : String),
      k < l.length →
      (∀ j, j < k → (env.llm (idx + j)).isOk = true) →
      env.llm (idx + k) = .error msg →
      (buildChunksLoop env pid gid ont nchunks total l idx st vst).outcome =
        .error msg ∧
      ∀ c ∈ (buildChunksLoop env pid gid ont nchunks total l idx st vst).store.chunks,
        c.chunk_id ∈ st.chunks.map ChunkRec.chunk_id ∨
          ∃ j, j ≤ k ∧ c.chunk_id = "chunk_" ++ env.chunkHex (idx + j) := by
  intro l
  induction l with
  | nil =>
    intro k idx st vst msg hk
    exact absurd hk (by simp)
  | cons chunk rest ih =>
    intro k idx st vst msg hk hok herr
    cases k with
    | zero =>
      rw [Nat.add_zero] at herr
      rw [buildChunksLoop_cons_error env pid gid ont nchunks total chunk rest idx
        st vst msg herr]
      refine ⟨rfl, ?_⟩
      intro c hc
      rcases upsert_chunk_chunk_ids pid gid ("chunk_" ++ env.chunkHex idx) chunk
          env.now st c hc with h | h
      · exact Or.inl h
      · exact Or.inr ⟨0, Nat.le_refl 0, by rw [Nat.add_zero]; exact h⟩
    | succ k' =>
      have h0 : (env.llm idx).isOk = true := by
        have := hok 0 (Nat.succ_pos k')
        rwa [Nat.add_zero] at this
      cases hllm : env.llm idx with
      | error e => rw [hllm] at h0; simp [Except.isOk, Except.toBool] at h0
      | ok raw =>
        rw [buildChunksLoop_cons_ok env pid gid ont nchunks total chunk rest idx
          st vst raw hllm]
        have hrec := ih k' (idx + 1)
          (chunkIngest env pid gid ("chunk_" ++ env.chunkHex idx) idx
            (sanitizedExtraction ont raw)
            (LocalNeo4jGraphStore.upsert_chunk pid gid ("chunk_" ++ env.chunkHex idx)
              chunk env.now st))
          (vecStep env idx ("chunk_" ++ env.chunkHex idx) chunk vst) msg
          (Nat.lt_of_succ_lt_succ hk)
          (fun j hj => by
            have := hok (j + 1) (Nat.succ_lt_succ hj)
            rwa [show idx + (j + 1) = idx + 1 + j by omega] at this)
          (by rwa [show idx + 1 + k' = idx + (k' + 1) by omega])
        refine ⟨hrec.1, ?_⟩
        intro c hc
        rcases hrec.2 c hc with h | ⟨j, hj, hid⟩
        · rw [chunkIngest_chunks] at h
          simp only [List.mem_map] at h
          obtain ⟨c0, hc0, hcid⟩ := h
          rcases upsert_chunk_chunk_ids pid gid ("chunk_" ++ env.chunkHex idx)
              chunk env.now st c0 hc0 with h' | h'
          · left
            rw [← hcid]
            exact h'
          · right
            exact ⟨0, Nat.zero_le _, by rw [Nat.add_zero, ← hcid]; exact h'⟩
        · right
          exact ⟨j + 1, Nat.succ_le_succ hj,
            by rwa [show idx + (j + 1) = idx + 1 + j by omega]⟩

/-- C5: an LLM extraction exception is never swallowed — `extract`
re-raises it, `build_graph_from_text` fails with the triggering error, and
no chunk after the failing one is persisted (every stored chunk id stems
from positions 0..i); vector-index failures, by contrast, are caught and
do not make the build fail. -/
theorem extraction_failure_aborts_build (env : BuildEnv)
    (pid text : String) (ont : Ontology) (gname : String)
    (cs co : Nat) (i : Nat) (msg : String)
    (hi : i < (env.split text cs co).length)
    (hok : ∀ j, j < i → (env.llm j).isOk = true)
    (herr : env.llm i = .error msg) :
    LocalGraphExtractor.extract (Except.error msg) ont = Except.error msg ∧
    (build_graph_from_text env pid text ont gname cs co emptyState).result =
      .error msg ∧
    ∀ c ∈ (build_graph_from_text env pid text ont gname cs co emptyState).store.chunks,
      ∃ j, j ≤ i ∧ c.chunk_id = "chunk_" ++ env.chunkHex j := by
  have hloop := buildChunksLoop_error_spec env pid
    (LocalNeo4jGraphStore.create_graph pid gname (some ont) env.graphHex env.now
      emptyState).1 ont (env.split text cs co).length
    (max (env.split text cs co).length 1) (env.split text cs co) i 0
    (LocalNeo4jGraphStore.create_graph pid gname (some ont) env.graphHex env.now
      emptyState).2 [] msg hi (fun j hj => by simpa using hok j hj)
    (by simpa using herr)
  have hbuild : build_graph_from_text env pid text ont gname cs co emptyState =
      ⟨(if env.hasCallback then [("创建本地图谱（Neo4j）...", (0.02 : ℚ))] else []) ++
          (buildChunksLoop env pid
            (LocalNeo4jGraphStore.create_graph pid gname (some ont) env.graphHex
              env.now emptyState).1 ont (env.split text cs co).length
            (max (env.split text cs co).length 1) (env.split text cs co) 0
            (LocalNeo4jGraphStore.create_graph pid gname (some ont) env.graphHex
              env.now emptyState).2 []).events,
        .error msg,
        (buildChunksLoop env pid
            (LocalNeo4jGraphStore.create_graph pid gname (some ont) env.graphHex
              env.now emptyState).1 ont (env.split text cs co).length
            (max (env.split text cs co).length 1) (env.split text cs co) 0
            (LocalNeo4jGraphStore.create_graph pid gname (some ont) env.graphHex
              env.now emptyState).2 []).store,
        (buildChunksLoop env pid
            (LocalNeo4jGraphStore.create_graph pid gname (some ont) env.graphHex
              env.now emptyState).1 ont (env.split text cs co).length
            (max (env.split text cs co).length 1) (env.split text cs co) 0
            (LocalNeo4jGraphStore.create_graph pid gname (some ont) env.graphHex
              env.now emptyState).2 []).vectors⟩ := by
    unfold build_graph_from_text
    dsimp only
    rw [hloop.1]
  refine ⟨rfl, ?_, ?_⟩
  · rw [hbuild]
  · intro c hc
    rw [hbuild] at hc
    rcases hloop.2 c hc with h | ⟨j, hj, hid⟩
    · exact absurd h (by simp [LocalNeo4jGraphStore.create_graph, emptyState])
    · exact ⟨j, hj, by simpa using hid⟩

/-- A two-chunk environment whose second extraction call fails. -/
def c5env : BuildEnv :=
  { split := fun _ _ _ => ["a", "b"]
    llm := fun i => if i = 0 then .ok {} else .error "boom"
    vectorStore := some (fun _ => .error "qdrant down")
    hasCallback := true
    graphHex := "g"
    chunkHex := fun i => toString i
    relHex := fun _ _ => "r"
    now := "t"
    sha1hex16 := fun s => s }

/-- Concrete instance of the C5 theorem: with `c5env` the build fails with
the second chunk's extraction error. -/
theorem extraction_failure_aborts_build_witness :
    LocalGraphExtractor.extract (Except.error "boom") {} = Except.error "boom" ∧
    (build_graph_from_text c5env "p" "text" {} "G" 10 0 emptyState).result =
      .error "boom" :=
  ⟨(extraction_failure_aborts_build c5env "p" "text" {} "G" 10 0 1 "boom"
      (by decide) (fun j hj => by interval_cases j ; rfl) (by rfl)).1,
    (extraction_failure_aborts_build c5env "p" "text" {} "G" 10 0 1 "boom"
      (by decide) (fun j hj => by interval_cases j ; rfl) (by rfl)).2.1⟩

/-! ### C6: progress reporting -/

/-- Shifting the chunk-event window of `buildChunksLoop` by one chunk. -/
theorem chunkEvents_shift (nchunks total n idx : Nat) :
    (List.range (n + 1)).map (fun j =>
      (chunkProgressLabel (idx + j) nchunks, chunkProgressValue (idx + j) total)) =
      (chunkProgressLabel idx nchunks, chunkProgressValue idx total) ::
        (List.range n).map (fun j =>
          (chunkProgressLabel (idx + 1 + j) nchunks,
            chunkProgressValue (idx + 1 + j) total)) := by
  rw [List.range_succ_eq_map, List.map_cons, List.map_map]
  congr 1
  apply List.map_congr_left
  intro j _
  simp only [Function.comp_apply]
  have h : idx + Nat.succ j = idx + 1 + j := by omega
  rw [h]

/-- When every extraction succeeds, the loop returns success and emits (for
a supplied callback) exactly one progress event per chunk, in order. -/
theorem buildChunksLoop_ok_spec (env : BuildEnv) (pid gid : String)
    (ont : Ontology) (nchunks total : Nat) :
    ∀ (l : List String) (idx : Nat) (st : Neo4jState)
      (vst : List (String × String)),
      (∀ j, j < l.length → (env.llm (idx + j)).isOk = true) →
      (buildChunksLoop env pid gid ont nchunks total l idx st vst).outcome =
        .ok () ∧
      (buildChunksLoop env pid gid ont nchunks total l idx st vst).events =
        (if env.hasCallback then
          (List.range l.length).map (fun j =>
            (chunkProgressLabel (idx + j) nchunks,
              chunkProgressValue (idx + j) total))
        else []) := by
  intro l
  induction l with
  | nil =>
    intro idx st vst _
    exact ⟨rfl, by cases env.hasCallback <;> rfl⟩
  | cons chunk rest ih =>
    intro idx st vst hok
    have h0 : (env.llm idx).isOk = true := by
      have := hok 0 (by simp)
      rwa [Nat.add_zero] at this
    cases hllm : env.llm idx with
    | error e => rw [hllm] at h0; simp [Except.isOk, Except.toBool] at h0
    | ok raw =>
      rw [buildChunksLoop_cons_ok env pid gid ont nchunks total chunk rest idx
        st vst raw hllm]
      have hrec := ih (idx + 1)
        (chunkIngest env pid gid ("chunk_" ++ env.chunkHex idx) idx
          (sanitizedExtraction ont raw)
          (LocalNeo4jGraphStore.upsert_chunk pid gid ("chunk_" ++ env.chunkHex idx)
            chunk env.now st))
        (vecStep env idx ("chunk_" ++ env.chunkHex idx) chunk vst)
        (fun j hj => by
          have := hok (j + 1) (by simpa using hj)
          rwa [show idx + (j + 1) = idx + 1 + j by omega] at this)
      refine ⟨hrec.1, ?_⟩
      show (if env.hasCallback then
          [(chunkProgressLabel idx nchunks, chunkProgressValue idx total)]
        else []) ++ _ = _
      rw [hrec.2]
      cases hcb : env.hasCallback
      · rfl
      · simp only [if_pos, List.singleton_append, List.length_cons]
        rw [chunkEvents_shift]

/-- The build's closed-form event list (callback supplied, all extractions
succeed): one creation event, one event per chunk, one finalize event, one
completion event. -/
theorem build_events_closed (env : BuildEnv) (pid text : String)
    (ont : Ontology) (gname : String) (cs co : Nat) (st0 : Neo4jState)
    (hcb : env.hasCallback = true)
    (hok : ∀ j, j < (env.split text cs co).length → (env.llm j).isOk = true) :
    (build_graph_from_text env pid text ont gname cs co st0).events =
      ("创建本地图谱（Neo4j）...", (0.02 : ℚ)) ::
        ((List.range (env.split text cs co).length).map (fun j =>
          (chunkProgressLabel j (env.split text cs co).length,
            chunkProgressValue j (max (env.split text cs co).length 1))) ++
          [("读取图谱数据...", (0.95 : ℚ)), ("完成", (1 : ℚ))]) := by
  have hloop := buildChunksLoop_ok_spec env pid
    (LocalNeo4jGraphStore.create_graph pid gname (some ont) env.graphHex env.now
      st0).1 ont (env.split text cs co).length
    (max (env.split text cs co).length 1) (env.split text cs co) 0
    (LocalNeo4jGraphStore.create_graph pid gname (some ont) env.graphHex env.now
      st0).2 [] (fun j hj => by simpa using hok j hj)
  unfold build_graph_from_text
  dsimp only
  rw [hloop.1]
  dsimp only
  rw [hloop.2, hcb]
  simp only [if_true, List.cons_append, List.nil_append, List.append_assoc,
    Nat.zero_add]

/-- The fraction of chunk `j` is strictly below the fraction of chunk
`j + 1`. -/
theorem chunkProgressValue_strict_mono (j total : Nat) (h : 0 < total) :
    chunkProgressValue j total < chunkProgressValue (j + 1) total := by
  unfold chunkProgressValue
  have ht : (0 : ℚ) < (total : ℚ) := by exact_mod_cast h
  have : (j : ℚ) / (total : ℚ) < ((j + 1 : Nat) : ℚ) / (total : ℚ) := by
    rw [div_lt_div_iff_of_pos_right ht]
    exact_mod_cast Nat.lt_succ_self j
  nlinarith

/-- The fraction of a chunk `j < total` lies in `[0.05, 0.9)`. -/
theorem chunkProgressValue_bounds (j total : Nat) (hj : j < total) :
    (0.05 : ℚ) ≤ chunkProgressValue j total ∧
      chunkProgressValue j total < (0.9 : ℚ) := by
  unfold chunkProgressValue
  have ht : (0 : ℚ) < (total : ℚ) := by
    exact_mod_cast Nat.lt_of_le_of_lt (Nat.zero_le j) hj
  have h0 : (0 : ℚ) ≤ (j : ℚ) / (total : ℚ) := by positivity
  have h1 : (j : ℚ) / (total : ℚ) < 1 := by
    rw [div_lt_one ht]
    exact_mod_cast hj
  constructor <;> nlinarith

/-- Length, strict monotonicity and `[0,1]` bounds of the raw progress
fraction sequence `0.02, chunk fractions, 0.95, 1`. -/
theorem progress_fraction_props (N : Nat) :
    ((0.02 : ℚ) :: ((List.range N).map
        (fun j => chunkProgressValue j (max N 1)) ++ [(0.95 : ℚ), 1])).length =
      N + 3 ∧
    List.Chain' (· < ·) ((0.02 : ℚ) :: ((List.range N).map
      (fun j => chunkProgressValue j (max N 1)) ++ [(0.95 : ℚ), 1])) ∧
    ∀ q ∈ (0.02 : ℚ) :: ((List.range N).map
        (fun j => chunkProgressValue j (max N 1)) ++ [(0.95 : ℚ), 1]),
      0 ≤ q ∧ q ≤ 1 := by
  refine ⟨by simp, ?_, ?_⟩
  · rw [List.chain'_cons']
    constructor
    · intro y hy
      have hmem := List.mem_of_mem_head? hy
      rcases List.mem_append.mp hmem with hm | hm
      · obtain ⟨j, hj, rfl⟩ := List.mem_map.mp hm
        have hjN : j < N := List.mem_range.mp hj
        have hb := (chunkProgressValue_bounds j (max N 1) (by omega)).1
        linarith
      · have : y = (0.95 : ℚ) ∨ y = 1 := by simpa using hm
        rcases this with rfl | rfl <;> norm_num
    · rw [List.chain'_append]
      refine ⟨?_, ?_, ?_⟩
      · rw [List.chain'_map]
        cases N with
        | zero => simp
        | succ m =>
          rw [List.chain'_range_succ]
          intro i _
          exact chunkProgressValue_strict_mono i (max (m + 1) 1) (by omega)
      · norm_num
      · intro x hx y hy
        have hy' : (0.95 : ℚ) = y := by simpa using hy
        subst hy'
        have hxmem := List.mem_of_mem_getLast? hx
        obtain ⟨j, hj, rfl⟩ := List.mem_map.mp hxmem
        have hjN : j < N := List.mem_range.mp hj
        have hb := (chunkProgressValue_bounds j (max N 1) (by omega)).2
        linarith
  · intro q hq
    rcases List.mem_cons.mp hq with rfl | hq'
    · norm_num
    rcases List.mem_append.mp hq' with hm | hm
    · obtain ⟨j, hj, rfl⟩ := List.mem_map.mp hm
      have hjN : j < N := List.mem_range.mp hj
      have hb := chunkProgressValue_bounds j (max N 1) (by omega)
      constructor <;> linarith [hb.1, hb.2]
    · have : q = (0.95 : ℚ) ∨ q = 1 := by simpa using hm
      rcases this with rfl | rfl <;> norm_num

/-- C6 (amended): for a build over N chunks with a callback supplied and
every extraction succeeding, the progress fractions are strictly
increasing, each lies in `[0, 1]`, and exactly N + 3 updates are emitted:
one for graph creation, one per chunk, one for the finalize read, and one
for completion — one more than the claimed N + 2. -/
theorem build_progress_monotone_n_plus_3 (env : BuildEnv) (pid text : String)
    (ont : Ontology) (gname : String) (cs co : Nat) (st0 : Neo4jState)
    (hcb : env.hasCallback = true)
    (hok : ∀ j, j < (env.split text cs co).length → (env.llm j).isOk = true) :
    (build_graph_from_text env pid text ont gname cs co st0).events.length =
      (env.split text cs co).length + 3 ∧
    List.Chain' (· < ·)
      ((build_graph_from_text env pid text ont gname cs co st0).events.map
        Prod.snd) ∧
    ∀ q ∈ (build_graph_from_text env pid text ont gname cs co st0).events.map
        Prod.snd, 0 ≤ q ∧ q ≤ 1 := by
  rw [build_events_closed env pid text ont gname cs co st0 hcb hok]
  have hmap : (((("创建本地图谱（Neo4j）...", (0.02 : ℚ)) ::
      ((List.range (env.split text cs co).length).map (fun j =>
        (chunkProgressLabel j (env.split text cs co).length,
          chunkProgressValue j (max (env.split text cs co).length 1))) ++
        [("读取图谱数据...", (0.95 : ℚ)), ("完成", (1 : ℚ))]))).map Prod.snd) =
      (0.02 : ℚ) :: ((List.range (env.split text cs co).length).map
        (fun j => chunkProgressValue j (max (env.split text cs co).length 1)) ++
        [(0.95 : ℚ), 1]) := by
    simp [List.map_append, List.map_map, Function.comp]
  rw [hmap]
  have hp := progress_fraction_props (env.split text cs co).length
  exact ⟨by simp [hp.1], hp.2.1, hp.2.2⟩

/-- A one-chunk environment with a callback and a trivially succeeding
LLM. -/
def c6env : BuildEnv :=
  { split := fun _ _ _ => ["only"]
    llm := fun _ => .ok {}
    vectorStore := none
    hasCallback := true
    graphHex := "g"
    chunkHex := fun i => toString i
    relHex := fun _ _ => "r"
    now := "t"
    sha1hex16 := fun s => s }

/-- C6 counterexample: a successful one-chunk build with a callback emits
4 = N + 3 progress updates (create, chunk, finalize read, done), not the
claimed N + 2 = 3: the finalize phase emits two separate updates (0.95 and
1.0). -/
theorem build_progress_count_counterexample :
    (c6env.split "text" 10 0).length = 1 ∧
    (build_graph_from_text c6env "p" "text" {} "G" 10 0 emptyState).events.length
      = 1 + 3 ∧
    ¬ (build_graph_from_text c6env "p" "text" {} "G" 10 0 emptyState).events.length
      = 1 + 2 := by
  refine ⟨rfl, rfl, by decide⟩

/-- Concrete instance of the amended C6 theorem on `c6env`. -/
theorem build_progress_monotone_n_plus_3_witness :
    (build_graph_from_text c6env "p" "text" {} "G" 10 0 emptyState).events.length =
      (c6env.split "text" 10 0).length + 3 ∧
    List.Chain' (· < ·)
      ((build_graph_from_text c6env "p" "text" {} "G" 10 0 emptyState).events.map
        Prod.snd) :=
  ⟨(build_progress_monotone_n_plus_3 c6env "p" "text" {} "G" 10 0 emptyState rfl
      (fun _ _ => rfl)).1,
    (build_progress_monotone_n_plus_3 c6env "p" "text" {} "G" 10 0 emptyState rfl
      (fun _ _ => rfl)).2.1⟩

/-! ### C10: get_entity_with_context -/

/-- Membership in a modelled Python-set insertion. -/
theorem mem_insertDedup (l : List String) (s x : String) :
    x ∈ insertDedup l s ↔ x ∈ l ∨ x = s := by
  unfold insertDedup
  split
  · rename_i hc
    constructor
    · exact Or.inl
    · rintro (h | rfl)
      · exact h
      · exact List.mem_of_elem_eq_true hc
  · simp [List.mem_append]

/-- A successful `node_lookup` returns a member of the node list carrying
the looked-up uuid. -/
theorem nodeLookup_some_mem (nodes : List LocalNeo4jGraphStore.NodeOut)
    (u : String) (n' : LocalNeo4jGraphStore.NodeOut)
    (h : nodeLookup nodes u = some n') : n' ∈ nodes ∧ n'.uuid = u := by
  unfold nodeLookup at h
  split at h
  · cases h
  · have hmem := List.mem_of_mem_getLast? h
    have := List.mem_filter.mp hmem
    exact ⟨this.1, by simpa using this.2⟩

/-- `node_lookup` succeeds on the truthy uuid of any listed node. -/
theorem nodeLookup_isSome_of_mem (nodes : List LocalNeo4jGraphStore.NodeOut)
    (m : LocalNeo4jGraphStore.NodeOut) (h : m ∈ nodes) (hne : m.uuid ≠ "") :
    (nodeLookup nodes m.uuid).isSome = true := by
  unfold nodeLookup
  rw [if_neg hne]
  rw [List.getLast?_isSome]
  intro hnil
  have : m ∈ nodes.filter (fun n => n.uuid == m.uuid) :=
    List.mem_filter.mpr ⟨h, by simp⟩
  rw [hnil] at this
  cases this

/-- Soundness of the `rel_nodes` fold: every collected id is the opposite
endpoint of some related edge. -/
theorem relatedNodeIds_fold_sound (nodes : List LocalNeo4jGraphStore.NodeOut)
    (u : String) :
    ∀ (l : List LocalNeo4jGraphStore.EdgeOut) (acc : List String) (x : String),
      x ∈ l.foldl (fun acc e =>
        let other := edgeOtherEnd e u
        if other != "" && (nodeLookup nodes other).isSome then insertDedup acc other
        else acc) acc →
      x ∈ acc ∨ ∃ ed ∈ l, edgeOtherEnd ed u = x := by
  intro l
  induction l with
  | nil => intro acc x hx; exact Or.inl hx
  | cons e rest ih =>
    intro acc x hx
    rw [List.foldl_cons] at hx
    rcases ih _ x hx with hacc | ⟨ed, hed, hx'⟩
    · dsimp only at hacc
      split at hacc
      · rcases (mem_insertDedup _ _ _).mp hacc with h | rfl
        · exact Or.inl h
        · exact Or.inr ⟨e, by simp, rfl⟩
      · exact Or.inl hacc
    · exact Or.inr ⟨ed, by simp [hed], hx'⟩

/-- The `rel_nodes` fold only grows the accumulator. -/
theorem relatedNodeIds_fold_mono (nodes : List LocalNeo4jGraphStore.NodeOut)
    (u : String) :
    ∀ (l : List LocalNeo4jGraphStore.EdgeOut) (acc : List String) (x : String),
      x ∈ acc →
      x ∈ l.foldl (fun acc e =>
        let other := edgeOtherEnd e u
        if other != "" && (nodeLookup nodes other).isSome then insertDedup acc other
        else acc) acc := by
  intro l
  induction l with
  | nil => intro acc x hx; exact hx
  | cons e rest ih =>
    intro acc x hx
    rw [List.foldl_cons]
    apply ih
    dsimp only
    split
    · exact (mem_insertDedup _ _ _).mpr (Or.inl hx)
    · exact hx

/-- Completeness of the `rel_nodes` fold: the truthy, resolvable opposite
endpoint of any related edge is collected. -/
theorem relatedNodeIds_fold_complete (nodes : List LocalNeo4jGraphStore.NodeOut)
    (u : String) :
    ∀ (l : List LocalNeo4jGraphStore.EdgeOut) (acc : List String)
      (ed : LocalNeo4jGraphStore.EdgeOut),
      ed ∈ l → edgeOtherEnd ed u ≠ "" →
      (nodeLookup nodes (edgeOtherEnd ed u)).isSome = true →
      edgeOtherEnd ed u ∈ l.foldl (fun acc e =>
        let other := edgeOtherEnd e u
        if other != "" && (nodeLookup nodes other).isSome then insertDedup acc other
        else acc) acc := by
  intro l
  induction l with
  | nil => intro acc ed hed; cases hed
  | cons e rest ih =>
    intro acc ed hed hne hsome
    rw [List.foldl_cons]
    rcases List.mem_cons.mp hed with rfl | hed'
    · apply relatedNodeIds_fold_mono
      dsimp only
      rw [if_pos (by simp [hne, hsome])]
      exact (mem_insertDedup _ _ _).mpr (Or.inr rfl)
    · exact ih _ ed hed' hne hsome

/-- The unfiltered, enriched `filter_defined_entities` pass lists every
graph node. -/
theorem filter_defined_entities_none (gid : String) (st : Neo4jState) :
    (LocalEntityReader.filter_defined_entities gid none true st).entities =
      (LocalNeo4jGraphStore.get_graph_data gid st).nodes.map
        (entityNodeOf (LocalNeo4jGraphStore.get_graph_data gid st).nodes
          (LocalNeo4jGraphStore.get_graph_data gid st).edges
          ((LocalNeo4jGraphStore.get_graph_data gid st).nodes.filterMap (fun n =>
            if n.uuid = "" then none else some n.uuid)) true) := by
  unfold LocalEntityReader.filter_defined_entities
  dsimp only
  rw [List.filter_eq_self.mpr (fun a _ => rfl)]

/-- C10: `get_entity_with_context` returns `None` exactly when no node of
the graph carries the requested uuid; otherwise the returned `EntityNode`
carries the requested uuid, its related edges are exactly the edges of the
graph incident to that uuid, every related node is a graph node joined by
a related edge, and conversely every truthy opposite endpoint of a related
edge that names a graph node appears among the related nodes. -/
theorem get_entity_with_context_spec (st : Neo4jState) (gid u : String)
    (hu : u ≠ "") :
    (LocalEntityReader.get_entity_with_context gid u st = none ↔
      ∀ n ∈ (LocalNeo4jGraphStore.get_graph_data gid st).nodes, ¬ n.uuid = u) ∧
    ∀ e, LocalEntityReader.get_entity_with_context gid u st = some e →
      e.uuid = u ∧
      e.related_edges = (LocalNeo4jGraphStore.get_graph_data gid st).edges.filter
        (fun ed => ed.source_node_uuid == u || ed.target_node_uuid == u) ∧
      (∀ n' ∈ e.related_nodes,
        n' ∈ (LocalNeo4jGraphStore.get_graph_data gid st).nodes ∧
        ∃ ed ∈ e.related_edges, edgeOtherEnd ed u = n'.uuid) ∧
      (∀ ed ∈ e.related_edges,
        ∀ m ∈ (LocalNeo4jGraphStore.get_graph_data gid st).nodes,
          m.uuid = edgeOtherEnd ed u → m.uuid ≠ "" →
          ∃ n' ∈ e.related_nodes, n'.uuid = m.uuid) := by
  have hget : LocalEntityReader.get_entity_with_context gid u st =
      Option.map (entityNodeOf (LocalNeo4jGraphStore.get_graph_data gid st).nodes
        (LocalNeo4jGraphStore.get_graph_data gid st).edges
        ((LocalNeo4jGraphStore.get_graph_data gid st).nodes.filterMap (fun n =>
          if n.uuid = "" then none else some n.uuid)) true)
        ((LocalNeo4jGraphStore.get_graph_data gid st).nodes.find? (fun n => n.uuid == u)) := by
    unfold LocalEntityReader.get_entity_with_context
    rw [filter_defined_entities_none]
    exact List.find?_map _ _
  constructor
  · rw [hget]
    constructor
    · intro h n hn hnu
      rw [Option.map_eq_none'] at h
      rw [List.find?_eq_none] at h
      have hcon := h n hn
      simp [hnu] at hcon
    · intro h
      rw [Option.map_eq_none', List.find?_eq_none]
      intro n hn
      simpa using h n hn
  · intro e he
    rw [hget] at he
    rw [Option.map_eq_some'] at he
    obtain ⟨n, hfind, rfl⟩ := he
    set ns := (LocalNeo4jGraphStore.get_graph_data gid st).nodes with hns
    set es := (LocalNeo4jGraphStore.get_graph_data gid st).edges with hes
    set fu := ns.filterMap (fun n => if n.uuid = "" then none else some n.uuid)
      with hfudef
    have hnu : n.uuid = u := by simpa using List.find?_some hfind
    have hnmem : n ∈ ns := List.mem_of_find?_eq_some hfind
    have hfu : fu.contains u = true := by
      have : u ∈ fu :=
        List.mem_filterMap.mpr ⟨n, hnmem, by rw [hnu, if_neg hu]⟩
      simpa using this
    have hedges : (entityNodeOf ns es fu true n).related_edges =
        es.filter (fun ed => ed.source_node_uuid == u || ed.target_node_uuid == u) := by
      show (if true = true then relatedEdgesFor fu es n.uuid else []) = _
      rw [if_pos rfl]
      unfold relatedEdgesFor
      rw [hnu, if_pos (by simpa using hfu)]
      apply List.filter_congr
      intro ed _
      by_cases hs : ed.source_node_uuid = u
      · simp [hs]
      · have h1 : (ed.source_node_uuid == u) = false := by simp [hs]
        by_cases ht : ed.target_node_uuid = u
        · have h2 : (ed.target_node_uuid == u) = true := by simp [ht]
          have h3 : (ed.target_node_uuid == ed.source_node_uuid) = false := by
            simp only [beq_eq_false_iff_ne, ne_eq]
            rw [ht]
            exact fun hcon => hs hcon.symm
          rw [h1, h2, h3]
          rfl
        · have h2 : (ed.target_node_uuid == u) = false := by simp [ht]
          rw [h1, h2]
          rfl
    refine ⟨by simpa using hnu, hedges, ?_, ?_⟩
    · intro n' hn'
      have hrel : n' ∈ (relatedNodeIds ns
          ((entityNodeOf ns es fu true n).related_edges) n.uuid).filterMap
            (nodeLookup ns) := hn'
      obtain ⟨oid, hoid, hlook⟩ := List.mem_filterMap.mp hrel
      have hsound := relatedNodeIds_fold_sound ns n.uuid
        ((entityNodeOf ns es fu true n).related_edges) [] oid hoid
      rcases hsound with h | ⟨ed, hed, hoe⟩
      · cases h
      · have hm := nodeLookup_some_mem ns oid n' hlook
        refine ⟨hm.1, ed, hed, ?_⟩
        rw [hm.2, ← hoe, hnu]
    · intro ed hed m hm hmu hmne
      have hsome : (nodeLookup ns (edgeOtherEnd ed u)).isSome = true := by
        rw [← hmu]
        exact nodeLookup_isSome_of_mem ns m hm hmne
      have hid : edgeOtherEnd ed u ∈ relatedNodeIds ns
          ((entityNodeOf ns es fu true n).related_edges) n.uuid := by
        unfold relatedNodeIds
        rw [hnu]
        exact relatedNodeIds_fold_complete ns u
          ((entityNodeOf ns es fu true n).related_edges) [] ed hed
          (by rw [← hmu]; exact hmne) hsome
      cases hlook : nodeLookup ns (edgeOtherEnd ed u) with
      | none => rw [hlook] at hsome; cases hsome
      | some n' =>
        refine ⟨n', ?_, ?_⟩
        · show n' ∈ (relatedNodeIds ns
            ((entityNodeOf ns es fu true n).related_edges) n.uuid).filterMap
              (nodeLookup ns)
          exact List.mem_filterMap.mpr ⟨edgeOtherEnd ed u, hid, hlook⟩
        · rw [hmu]
          exact (nodeLookup_some_mem ns (edgeOtherEnd ed u) n' hlook).2

/-- A two-node, one-edge store used by the C10 witness. -/
def c10st : Neo4jState :=
  { entities :=
      [{ uuid := "ent_a", graph_id := some "g", name := some "A"
         entity_type := some "T", summary := some "", attributes_json := some []
         created_at := some "t", project_id := some "p" },
       { uuid := "ent_b", graph_id := some "g", name := some "B"
         entity_type := some "T", summary := some "", attributes_json := some []
         created_at := some "t", project_id := some "p" }]
    rels := [{ uuid := "rel_1", source_uuid := "ent_a", target_uuid := "ent_b"
               graph_id := some "g", project_id := some "p", name := some "knows"
               fact := some "A knows B", fact_type := some "knows"
               attributes_json := some [], created_at := some "t" }] }

/-- Concrete instance of the C10 theorem: looking up a uuid absent from
`c10st` yields `None`. -/
theorem get_entity_with_context_spec_witness :
    LocalEntityReader.get_entity_with_context "g" "ent_zz" c10st = none :=
  ((get_entity_with_context_spec c10st "g" "ent_zz" (by decide)).1).mpr (by decide)
